import Mathlib

/-!
# GinTalk: vote pipeline, ranking cache and connection hub

A shallow embedding of the parts of the GinTalk backend that the
specification talks about, followed by the theorems that settle its claims.

* `cache/post.go`, `cache/vote_post.go`: hotness score, summary cache, ranking sets
* `dao/vote_post.go`, `dao/post.go`: vote rows, vote counters, post lookup
* `websocket/hub.go`, `websocket/client.go`: the connection hub
* `kafka/handles.go`: the worker that processes one vote intent
* `service/post.go`, `service/truncate.go`: listing posts with refresh of the
  cache, updating a post with the delayed second delete
* `service/singleFlightKey.go`, `service/vote_post.go`: coalescing keys and
  groups, submitting a vote or an unvote
* `kafka/kafka.go`, `kafka/manager.go`: topics and the table of handlers
* `pkg/encryption.go`: the password digest

Conventions. Go `float64` arithmetic is taken over the reals. Go `int` and
`int64` values are Lean integers; where a product or sum of caller-supplied
integers can leave the 64-bit range it is reduced with `wrap64`, and the
integers of a struct that is written to JSON and read back are of the bounded
type `Int64`. The external
stores (Redis, MySQL) are explicit state; a backend command that may fail takes
a flag saying whether it fails in this run. Where a deadline decides what the
code does, the clock is an explicit integer (nanoseconds) and a detached task
is a function of its own, applied to the state it finds when it runs.
-/

namespace GinTalk

/-! ## Errors and 64-bit integers -/

/-- The Go `error` values the embedded functions return. -/
inductive Error where
  /-- The value `fmt.Errorf("vote failed")` of `AddPostVoteWithTx`. -/
  | voteFailed
  /-- An error reported by the database or cache client. -/
  | backend
  /-- An error of `json.Unmarshal`. -/
  | unmarshal
  /-- The value `context.DeadlineExceeded`. -/
  | deadlineExceeded
  /-- An error made with `fmt.Errorf` when an argument is rejected. -/
  | invalid
deriving DecidableEq, Repr

/-- Reduction of an integer to the signed 64-bit range, as Go `int` and `int64`
arithmetic does on overflow (64-bit platform). -/
def wrap64 (x : Int) : Int := (x + 2 ^ 63) % 2 ^ 64 - 2 ^ 63

/-- A value of the Go type `int64`: an integer of the signed 64-bit range. -/
abbrev Int64 : Type := { n : Int // -(2 ^ 63) ≤ n ∧ n < 2 ^ 63 }

/-- The Go conversion `int64(x)`. -/
def Int64.ofInt (x : Int) : Int64 :=
  ⟨wrap64 x, by unfold wrap64; constructor <;> omega⟩

instance Int64.instOfNat (n : Nat) : OfNat Int64 n := ⟨Int64.ofInt n⟩

/-- Go `strconv.FormatInt(i, 10)`. -/
def FormatInt (i : Int) : String := toString i

/-- The integer `strconv.Atoi` returns for `s`; its error is what the caller in
`GetPostIDs` discards. An optional sign followed by decimal digits is read as a
number, clamped to the `int64` range; anything else gives 0. -/
def Atoi (s : String) : Int :=
  let signed : Bool × List Char :=
    match s.data with
    | '-' :: r => (true, r)
    | '+' :: r => (false, r)
    | r => (false, r)
  if signed.2 = [] ∨ ¬ signed.2.all Char.isDigit then 0
  else
    let un : Nat := signed.2.foldl (fun n ch => n * 10 + (ch.toNat - 48)) 0
    if signed.1 then (if un > 2 ^ 63 then -(2 ^ 63) else -(un : Int))
    else (if un ≥ 2 ^ 63 then 2 ^ 63 - 1 else (un : Int))

/-! ## Relational store (`dao/vote_post.go`, `dao/post.go`) -/

/-- A row of `vote_post` as `INSERT INTO vote_post (post_id, user_id)` writes it. -/
structure VotePostRow where
  post_id : Int
  user_id : Int
deriving DecidableEq, Repr

/-- A row of `content_votes`: the stored vote counter of a post. -/
structure ContentVotesRow where
  post_id : Int
  vote : Int
  delete_time : Int
deriving DecidableEq, Repr

/-- The struct `DTO.PostDetail`. -/
structure PostDetail where
  PostID : Int
  Title : String
  Content : String
  AuthorId : Int
  Username : String
  CommunityID : Int
  CommunityName : String
  Status : Int
deriving DecidableEq, Repr

/-- A row of `post` with the columns that the inner joins of `GetPostDetail`
(`community`, `user`, `post_content`) add to it; `summary` is the column
`post.summary`. -/
structure PostRow where
  detail : PostDetail
  delete_time : Int
  summary : String
deriving DecidableEq, Repr

/-- The relational store. The table definitions are not part of the repository:
`vote_post_unique` says whether `(post_id, user_id)` is a unique key of
`vote_post`, and is left open. -/
structure DB where
  vote_post : List VotePostRow
  content_votes : List ContentVotesRow
  post : List PostRow
  vote_post_unique : Bool
deriving DecidableEq, Repr

/-- Which statements of the transaction in `AddPostVoteWithTx` fail in this run
for a reason of the backend (connection, constraint, deadlock). -/
structure TxFaults where
  beginErr : Bool
  voteRowErr : Bool
  counterErr : Bool
  commitErr : Bool
deriving DecidableEq, Repr

/-- A run in which no statement of the transaction fails. -/
def TxFaults.none : TxFaults := ⟨false, false, false, false⟩

/-- The first statement of `AddPostVoteWithTx`: `INSERT INTO vote_post` when
`vote > 0`, `DELETE FROM vote_post WHERE post_id = ? AND user_id = ?` otherwise.
Returns the table after the statement and `RowsAffected`, or `none` when the
insert violates the unique key. -/
def execVoteRow (db : DB) (postID userID vote : Int) : Option (List VotePostRow × Nat) :=
  if vote > 0 then
    if db.vote_post_unique ∧ (⟨postID, userID⟩ : VotePostRow) ∈ db.vote_post then none
    else some (db.vote_post ++ [⟨postID, userID⟩], 1)
  else
    some (db.vote_post.filter (fun r => ¬ (r.post_id = postID ∧ r.user_id = userID)),
          (db.vote_post.filter (fun r => r.post_id = postID ∧ r.user_id = userID)).length)

/-- The second statement of `AddPostVoteWithTx`:
`UPDATE content_votes SET vote = vote ± 1 WHERE post_id = ? AND delete_time = 0`. -/
def execCounter (rows : List ContentVotesRow) (postID vote : Int) : List ContentVotesRow :=
  rows.map (fun r =>
    if r.post_id = postID ∧ r.delete_time = 0 then
      { r with vote := if vote > 0 then r.vote + 1 else r.vote - 1 }
    else r)

/-- The function `AddPostVoteWithTx` of `dao/vote_post.go`. The result is the store
after the call and the returned error (`none` is Go `nil`). A rollback, and a
failed commit, leave the store as it was at `Begin`. -/
def AddPostVoteWithTx (f : TxFaults) (db : DB) (postID userID vote : Int) :
    DB × Option Error :=
  if f.beginErr then (db, some Error.backend)
  else
    match (if f.voteRowErr then Option.none else execVoteRow db postID userID vote) with
    | Option.none => (db, some Error.voteFailed)
    | some (rows, rowsAffected) =>
      if rowsAffected = 0 then (db, some Error.voteFailed)
      else if f.counterErr then (db, some Error.backend)
      else if f.commitErr then (db, some Error.backend)
      else
        ({ db with vote_post := rows,
                   content_votes := execCounter db.content_votes postID vote }, Option.none)

/-- The struct `DTO.PostVoteCounts`. -/
structure PostVoteCounts where
  PostID : Int
  Vote : Int
deriving DecidableEq, Repr

/-- The function `GetPostVoteCount` of `dao/vote_post.go`: the first row of
`content_votes` with this `post_id` and `delete_time = 0`, scanned into a
zero-valued struct (which stays zero when no row matches). -/
def GetPostVoteCount (queryErr : Bool) (db : DB) (postID : Int) : Except Error PostVoteCounts :=
  if queryErr then Except.error Error.backend
  else
    match db.content_votes.find? (fun r => r.post_id = postID ∧ r.delete_time = 0) with
    | some r => Except.ok ⟨r.post_id, r.vote⟩
    | Option.none => Except.ok ⟨0, 0⟩

/-- The stored vote counter of a post: the `vote` column of its live
`content_votes` row, when there is one. -/
def voteCounter (db : DB) (postID : Int) : Option Int :=
  (db.content_votes.find? (fun r => r.post_id = postID ∧ r.delete_time = 0)).map (fun r => r.vote)

/-- The function `GetPostDetail` of `dao/post.go`: the first live row of the
join for this post, scanned into a zero-valued struct. -/
def GetPostDetail (queryErr : Bool) (db : DB) (postID : Int) : Except Error PostDetail :=
  if queryErr then Except.error Error.backend
  else
    match db.post.find? (fun r => r.detail.PostID = postID ∧ r.delete_time = 0) with
    | some r => Except.ok r.detail
    | Option.none => Except.ok ⟨0, "", "", 0, "", 0, "", 0⟩

/-! ## Cache backend (Redis) -/

/-- A JSON value, as far as decoding a `PostSummary` can tell values apart. -/
inductive JSONValue where
  | null
  /-- An integer literal. -/
  | int (n : Int)
  | str (s : String)
  /-- Any other value: a fraction, a boolean, an array, an object. -/
  | other
deriving DecidableEq, Repr

/-- A JSON object: its members in the order they are written. The text that
`encoding/json` writes and reads is identified with the object it denotes. -/
abbrev JSONObject := List (String × JSONValue)

/-- A Redis sorted set: its members with their scores. `S` is the type of
scores (`float64` in the Go client, taken as any linear order here). -/
abbrev ZSet (S : Type) := List (String × S)

/-- The cache: the string values and the sorted sets, by key. A key without a
sorted set holds the empty one. Expiry of string values is not modelled: every
read considered here follows its write at once. -/
structure Cache (S : Type) where
  strings : String → Option JSONObject
  zsets : String → ZSet S

/-- Redis `ZSCORE`. -/
def ZSet.score {S : Type} (z : ZSet S) (member : String) : Option S :=
  (z.find? (fun e => e.1 = member)).map (fun e => e.2)

/-- Redis `ZADD key score member`: sets the score of the member, adding it when
absent. -/
def ZSet.zadd {S : Type} (z : ZSet S) (score : S) (member : String) : ZSet S :=
  (member, score) :: z.filter (fun e => e.1 ≠ member)

/-- Redis `ZINCRBY key increment member`: adds to the score of the member; an
absent member counts as having score 0. -/
def ZSet.zincrby {S : Type} [Zero S] [Add S] (z : ZSet S) (increment : S) (member : String) :
    ZSet S :=
  z.zadd ((z.score member).getD 0 + increment) member

/-- Redis `ZREM key member`. -/
def ZSet.zrem {S : Type} (z : ZSet S) (member : String) : ZSet S :=
  z.filter (fun e => e.1 ≠ member)

/-- The order of `ZREVRANGE`: higher score first, and among equal scores the
lexicographically greater member first. -/
def ZSet.revLE {S : Type} [LinearOrder S] (a b : String × S) : Prop :=
  b.2 < a.2 ∨ (b.2 = a.2 ∧ b.1 ≤ a.1)

instance ZSet.revLE_decidable {S : Type} [LinearOrder S] :
    DecidableRel (ZSet.revLE : String × S → String × S → Prop) :=
  fun a b => inferInstanceAs (Decidable (b.2 < a.2 ∨ (b.2 = a.2 ∧ b.1 ≤ a.1)))

/-- The entries of a sorted set from rank 0 of `ZREVRANGE` on. -/
def ZSet.revOrder {S : Type} [LinearOrder S] (z : ZSet S) : List (String × S) :=
  z.insertionSort ZSet.revLE

/-- Redis `ZREVRANGE key start stop`: the members at the ranks `start` to `stop`
(both included) of the reverse order; a negative index counts from the end, an
index past the end is cut off. -/
def ZSet.ZRevRange {S : Type} [LinearOrder S] (z : ZSet S) (start stop : Int) : List String :=
  let llen : Int := z.length
  let start1 := if start < 0 then llen + start else start
  let stop1 := if stop < 0 then llen + stop else stop
  let start2 := if start1 < 0 then 0 else start1
  if start2 > stop1 ∨ start2 ≥ llen then []
  else
    let stop2 := if stop1 ≥ llen then llen - 1 else stop1
    ((z.revOrder.drop start2.toNat).take (stop2 - start2 + 1).toNat).map (fun e => e.1)

/-- The entries at the ranks `start`, ..., `start + count - 1` of the reverse
order of a sorted set (fewer when the set ends before). -/
def ZSet.rankWindow {S : Type} [LinearOrder S] (z : ZSet S) (start count : Nat) :
    List (String × S) :=
  (z.revOrder.drop start).take count

/-! ## Cache keys (`cache/key.go`) -/

/-- The template `PostSummaryTemplate`. -/
def PostSummaryTemplate : String := "post:id:%v"

/-- The template `PostRankingTemplate`. -/
def PostRankingTemplate : String := "post:ranking"

/-- The template `PostTimeTemplate`. -/
def PostTimeTemplate : String := "post:time"

/-- Go `fmt.Sprintf` for a template whose only verb is `%v`: each `%v` is
replaced by the next parameter (already printed). -/
def sprintfV : List Char → List String → List Char
  | '%' :: 'v' :: rest, p :: ps => p.data ++ sprintfV rest ps
  | c :: rest, ps => c :: sprintfV rest ps
  | [], _ => []

/-- The function `GenerateRedisKey` of `cache/key.go`. -/
def GenerateRedisKey (template : String) (param : List String) : String :=
  ⟨sprintfV template.data param⟩

/-! ## Post summaries (`DTO/post.go`) and their JSON form -/

/-- The struct `DTO.PostSummary`. Its integers are typed as `int64` values: the
struct is written to JSON and read back, and the reader accepts no other
integer. -/
structure PostSummary where
  PostID : Int64
  Title : String
  Summary : String
  AuthorId : Int64
  Username : String
  CommunityID : Int64
  CommunityName : String
deriving DecidableEq, Repr

/-- The zero value of `DTO.PostSummary`. -/
def PostSummary.zero : PostSummary := ⟨0, "", "", 0, "", 0, ""⟩

/-- A member of the object written for an `int64` field tagged `omitempty`. -/
def omitemptyInt (name : String) (v : Int64) : JSONObject :=
  if v.val = 0 then [] else [(name, JSONValue.int v.val)]

/-- A member of the object written for a `string` field tagged `omitempty`. -/
def omitemptyString (name : String) (v : String) : JSONObject :=
  if v = "" then [] else [(name, JSONValue.str v)]

/-- Go `json.Marshal` on a `PostSummary`: the fields in declaration order under
their tag names, a zero field left out. -/
def Marshal (p : PostSummary) : JSONObject :=
  omitemptyInt "post_id" p.PostID ++ omitemptyString "title" p.Title
    ++ omitemptyString "summary" p.Summary ++ omitemptyInt "author_id" p.AuthorId
    ++ omitemptyString "author_name" p.Username ++ omitemptyInt "community_id" p.CommunityID
    ++ omitemptyString "community_name" p.CommunityName

/-- Decoding of a JSON value into an `int64` field holding `old`: `null` leaves
the field as it is, an integer literal of the `int64` range is stored, and a
literal outside that range is rejected like a value of another kind
(`json.UnmarshalTypeError`). -/
def decodeInt (v : JSONValue) (old : Int64) : Except Error Int64 :=
  match v with
  | JSONValue.null => Except.ok old
  | JSONValue.int n =>
    if h : -(2 ^ 63) ≤ n ∧ n < 2 ^ 63 then Except.ok ⟨n, h⟩
    else Except.error Error.unmarshal
  | _ => Except.error Error.unmarshal

/-- Decoding of a JSON value into a `string` field holding `old`. -/
def decodeString (v : JSONValue) (old : String) : Except Error String :=
  match v with
  | JSONValue.null => Except.ok old
  | JSONValue.str s => Except.ok s
  | _ => Except.error Error.unmarshal

/-- The case folding of one character under which `encoding/json` compares the
name of a member with the tag of a field: a letter and its capital are the
same, and so are the long s (U+017F) and `s`, the Kelvin sign (U+212A) and `k`.
(Other characters outside ASCII fold among themselves, which no tag written in
ASCII can tell.) -/
def foldChar (c : Char) : Char :=
  if c = Char.ofNat 0x017F then 'S'
  else if c = Char.ofNat 0x212A then 'K'
  else c.toUpper

/-- The folded form of a name: two names are the same to the decoder when their
folded forms are equal. -/
def foldName (s : String) : String := ⟨s.data.map foldChar⟩

/-- One member of the object decoded into the struct: the field whose tag is
the name of the member, up to case folding, is set; a name that matches no tag
is skipped. -/
def unmarshalMember (p : PostSummary) (kv : String × JSONValue) : Except Error PostSummary :=
  if foldName kv.1 = foldName "post_id" then
    (decodeInt kv.2 p.PostID).map (fun x => { p with PostID := x })
  else if foldName kv.1 = foldName "title" then
    (decodeString kv.2 p.Title).map (fun x => { p with Title := x })
  else if foldName kv.1 = foldName "summary" then
    (decodeString kv.2 p.Summary).map (fun x => { p with Summary := x })
  else if foldName kv.1 = foldName "author_id" then
    (decodeInt kv.2 p.AuthorId).map (fun x => { p with AuthorId := x })
  else if foldName kv.1 = foldName "author_name" then
    (decodeString kv.2 p.Username).map (fun x => { p with Username := x })
  else if foldName kv.1 = foldName "community_id" then
    (decodeInt kv.2 p.CommunityID).map (fun x => { p with CommunityID := x })
  else if foldName kv.1 = foldName "community_name" then
    (decodeString kv.2 p.CommunityName).map (fun x => { p with CommunityName := x })
  else Except.ok p

/-- Go `json.Unmarshal` of an object into the struct `into`. -/
def Unmarshal : JSONObject → PostSummary → Except Error PostSummary
  | [], into => Except.ok into
  | kv :: rest, into =>
    match unmarshalMember into kv with
    | Except.ok p => Unmarshal rest p
    | Except.error e => Except.error e

/-! ## Calendar dates -/

/-- The number of days from 1970-01-01 to the day `d` of month `m` of year `y`
(proleptic Gregorian calendar). -/
def daysFromCivil (y m d : Int) : Int :=
  let y1 := if m ≤ 2 then y - 1 else y
  let era := (if y1 ≥ 0 then y1 else y1 - 399) / 400
  let yoe := y1 - era * 400
  let mp := (m + 9) % 12
  let doy := (153 * mp + 2) / 5 + d - 1
  let doe := yoe * 365 + yoe / 4 - yoe / 100 + doy
  era * 146097 + doe - 719468

/-- Go `time.Date(y, m, d, hour, min, sec, 0, time.UTC).Unix()`. -/
def unixUTC (y m d hour min sec : Int) : Int :=
  daysFromCivil y m d * 86400 + hour * 3600 + min * 60 + sec

/-! ## Hotness score (`cache/post.go`) -/

/-- Go `math.Log10`, over the reals. -/
noncomputable def log10 (x : ℝ) : ℝ := Real.logb 10 x

/-- The function `hot` of `cache/post.go`. `ups` is the Go `int` vote count and
`unix` the value of `date.Unix()`. The integer subtractions are exact for every
vote count (`downs` is the constant 0) and for every instant whose Unix second
count is at least `1577808000` above the least `int64`, which covers
`time.Now()` and every stored creation time. -/
noncomputable def hot (ups : Int) (unix : Int) : ℝ :=
  let downs : Int := 0
  let s : ℝ := ((ups - downs : Int) : ℝ)
  let order : ℝ := log10 (max |s| 1)
  let sign : ℝ := if s > 0 then 1 else if s < 0 then -1 else 0
  let seconds : ℝ := ((unix - 1577808000 : Int) : ℝ)
  sign * order + seconds / 45000

/-- The function `deltaHot` of `cache/post.go`. -/
noncomputable def deltaHot (oldUp newUp : Int) : ℝ :=
  log10 (max (newUp : ℝ) 1) - log10 (max (oldUp : ℝ) 1)

/-! ## Summary cache and ranking sets (`cache/post.go`, `cache/vote_post.go`) -/

/-- The constant `OrderByHot`. -/
def OrderByHot : Int := 1

/-- The constant `OrderByTime`. -/
def OrderByTime : Int := 2

/-- The map `caseTemplateMap` of `GetPostIDs`; a key it lacks gives the empty
string. -/
def caseTemplateMap (order : Int) : String :=
  if order = OrderByHot then PostRankingTemplate
  else if order = OrderByTime then PostTimeTemplate
  else ""

/-- Which commands of `SavePost` fail in this run. -/
structure SaveFaults where
  setErr : Bool
  zaddTimeErr : Bool
  zaddHotErr : Bool
deriving DecidableEq, Repr

/-- A run of `SavePost` in which no command fails. -/
def SaveFaults.none : SaveFaults := ⟨false, false, false⟩

/-- The function `SavePost` of `cache/post.go`. `now1` and `now2` are the Unix
second counts of its two calls of `time.Now()`. -/
noncomputable def SavePost (f : SaveFaults) (now1 now2 : Int) (c : Cache ℝ)
    (summary : PostSummary) : Cache ℝ × Option Error :=
  let key := GenerateRedisKey PostSummaryTemplate [FormatInt summary.PostID.val]
  let data := Marshal summary
  if f.setErr then (c, some Error.backend)
  else
    let c1 : Cache ℝ := { c with strings := Function.update c.strings key (some data) }
    let timestamp : ℝ := (now1 : ℝ)
    let hotScore : ℝ := hot 0 now2
    if f.zaddTimeErr then (c1, some Error.backend)
    else
      let timeKey := GenerateRedisKey PostTimeTemplate []
      let c2 : Cache ℝ :=
        { c1 with zsets := Function.update c1.zsets timeKey
                    ((c1.zsets timeKey).zadd timestamp (FormatInt summary.PostID.val)) }
      if f.zaddHotErr then (c2, some Error.backend)
      else
        let hotKey := GenerateRedisKey PostRankingTemplate []
        ({ c2 with zsets := Function.update c2.zsets hotKey
                     ((c2.zsets hotKey).zadd hotScore (FormatInt summary.PostID.val)) }, Option.none)

/-- The function `GetPostIDs` of `cache/post.go`. `order`, `pageNum` and
`pageSize` are Go `int` values; the page arithmetic is that of 64-bit integers. -/
def GetPostIDs {S : Type} [LinearOrder S] (zrevrangeErr : Bool) (c : Cache S)
    (order pageNum pageSize : Int) : Except Error (List Int) :=
  let key := GenerateRedisKey (caseTemplateMap order) []
  let start := wrap64 ((pageNum - 1) * pageSize)
  let stop := wrap64 (start + pageSize - 1)
  if zrevrangeErr then Except.error Error.backend
  else Except.ok (((c.zsets key).ZRevRange start stop).map Atoi)

/-- The loop of `GetPostSummary` over the values of `MGET`: a missing value
leaves a zero summary in the result and records the requested ID, a present
value is decoded into its place. -/
def scanSummaries : List (Option JSONObject) → List Int →
    Except Error (List PostSummary × List Int)
  | Option.none :: values, id :: ids =>
    match scanSummaries values ids with
    | Except.ok (result, missingIDs) => Except.ok (PostSummary.zero :: result, id :: missingIDs)
    | Except.error e => Except.error e
  | some value :: values, _ :: ids =>
    match Unmarshal value PostSummary.zero with
    | Except.error e => Except.error e
    | Except.ok p =>
      match scanSummaries values ids with
      | Except.ok (result, missingIDs) => Except.ok (p :: result, missingIDs)
      | Except.error e => Except.error e
  | _, _ => Except.ok ([], [])

/-- Redis `MGET` through the client: the value of every key in the order asked,
or the error of the command. `mgetErr` says whether the backend fails in this
run; a command without a key is rejected by the server in every run (wrong
number of arguments). -/
def MGet {S : Type} (mgetErr : Bool) (c : Cache S) (keys : List String) :
    Except Error (List (Option JSONObject)) :=
  if mgetErr ∨ keys = [] then Except.error Error.backend
  else Except.ok (keys.map c.strings)

/-- The function `GetPostSummary` of `cache/post.go`. -/
def GetPostSummary {S : Type} (mgetErr : Bool) (c : Cache S) (postID : List Int) :
    Except Error (List PostSummary × List Int) :=
  let strKeys := postID.map (fun key => GenerateRedisKey PostSummaryTemplate [FormatInt key])
  match MGet mgetErr c strKeys with
  | Except.error err => Except.error err
  | Except.ok values => scanSummaries values postID

/-- The function `AddPostHot` of `cache/vote_post.go`: one `ZINCRBY` in a
transaction pipeline. -/
noncomputable def AddPostHot (execErr : Bool) (c : Cache ℝ) (postID oldUp newUp : Int) :
    Cache ℝ × Option Error :=
  let key := GenerateRedisKey PostRankingTemplate []
  if execErr then (c, some Error.backend)
  else
    ({ c with zsets := Function.update c.zsets key
                ((c.zsets key).zincrby (deltaHot oldUp newUp) (FormatInt postID)) }, Option.none)

/-- The score of a post in the hotness ordered set. -/
def hotScore {S : Type} (c : Cache S) (postID : Int) : Option S :=
  (c.zsets (GenerateRedisKey PostRankingTemplate [])).score (FormatInt postID)

/-! ## Connection hub (`websocket/hub.go`, `websocket/client.go`) -/

/-- The constant `MessageKindNotificationVote`. -/
def MessageKindNotificationVote : String := "notification_vote"

/-- The struct `Message` of `websocket/messageType.go`. -/
structure Message where
  Kind : String
  From : String
  To : String
  Data : String
deriving DecidableEq, Repr

/-- A `Client`, reduced to what the hub touches: the user and the messages sent
on its channel `Send` so far, oldest first. -/
structure Client where
  User : String
  Send : List Message
deriving DecidableEq, Repr

/-- The maps of the struct `Hub`: `Clients` (live subscribers) and `Messages`
(offline mailboxes). A Go map is a partial function on its keys. -/
structure Hub where
  Clients : String → Option Client
  Messages : String → Option (List Message)

/-- The hub made by `newHub`: both maps empty. -/
def newHub : Hub := ⟨fun _ => Option.none, fun _ => Option.none⟩

/-- The case `client := <-h.NewClients` of `Hub.run`: the client is registered,
then its mailbox, when it has one, is sent to it and deleted. -/
def Hub.connect (h : Hub) (client : Client) : Hub :=
  let clients := Function.update h.Clients client.User (some client)
  match h.Messages client.User with
  | some messages =>
    { Clients := Function.update clients client.User
        (some { client with Send := client.Send ++ messages }),
      Messages := Function.update h.Messages client.User Option.none }
  | Option.none => { Clients := clients, Messages := h.Messages }

/-- The case `client := <-h.CloseClients` of `Hub.run`. -/
def Hub.disconnect (h : Hub) (client : Client) : Hub :=
  { h with Clients := Function.update h.Clients client.User Option.none }

/-- The case `msg := <-h.Message` of `Hub.run`. -/
def Hub.route (h : Hub) (msg : Message) : Hub :=
  match h.Clients msg.To with
  | some client =>
    { h with Clients := Function.update h.Clients msg.To
               (some { client with Send := client.Send ++ [msg] }) }
  | Option.none =>
    { h with Messages := Function.update h.Messages msg.To
               (some ((h.Messages msg.To).getD [] ++ [msg])) }

/-- The method `Hub.SendToUser` of `websocket/client.go`: the hub after the call
and the returned error. -/
def Hub.SendToUser (h : Hub) (message : Message) : Hub × Option Error :=
  let userID := message.To
  match h.Clients userID with
  | Option.none => (h, Option.none)
  | some client =>
    ({ h with Clients := Function.update h.Clients userID
                (some { client with Send := client.Send ++ [message] }) }, Option.none)

/-- One step of the hub. -/
inductive HubStep where
  | connect (client : Client)
  | disconnect (client : Client)
  | route (msg : Message)
  | sendToUser (message : Message)
deriving DecidableEq, Repr

/-- The hub after one step. -/
def Hub.step (h : Hub) : HubStep → Hub
  | HubStep.connect client => h.connect client
  | HubStep.disconnect client => h.disconnect client
  | HubStep.route msg => h.route msg
  | HubStep.sendToUser message => (h.SendToUser message).1

/-- The hub after a sequence of steps. -/
def Hub.run (h : Hub) (steps : List HubStep) : Hub := steps.foldl Hub.step h

/-- The messages that a sequence of steps routes to a user through the hub loop,
in order. -/
def routedTo (user : String) (steps : List HubStep) : List Message :=
  steps.filterMap (fun s =>
    match s with
    | HubStep.route msg => if msg.To = user then some msg else Option.none
    | _ => Option.none)

/-- The hub states reachable from the empty hub. -/
inductive Hub.Reachable : Hub → Prop where
  | init : Hub.Reachable newHub
  | step (h : Hub) (s : HubStep) : Hub.Reachable h → Hub.Reachable (h.step s)

/-! ## Vote worker (`kafka/handles.go`) -/

/-- Which backend calls of `handleLikeMessage` fail in this run. -/
structure LikeFaults where
  tx : TxFaults
  getPostVoteCountErr : Bool
  addPostHotErr : Bool
  getPostDetailErr : Bool
deriving DecidableEq, Repr

/-- A run of `handleLikeMessage` in which no backend call fails. -/
def LikeFaults.none : LikeFaults := ⟨TxFaults.none, false, false, false⟩

/-- What `handleLikeMessage` acts on: the relational store, the cache, the hub,
and the record of the messages it has handed to `Hub.SendToUser`, oldest first. -/
structure World where
  db : DB
  cache : Cache ℝ
  hub : Hub
  handed : List Message

/-- The function `handleLikeMessage` of `kafka/handles.go` from the point where
the message is decoded into `postID`, `userID` and the vote value `vote` (a
message that does not decode is logged and dropped before that point). Every
early `return` of the source is a branch that gives back the world reached so
far. -/
noncomputable def handleLikeMessage (f : LikeFaults) (w : World) (postID userID vote : Int) :
    World :=
  match AddPostVoteWithTx f.tx w.db postID userID vote with
  | (_, some _) => w
  | (db1, Option.none) =>
    let w1 : World := { w with db := db1 }
    match GetPostVoteCount f.getPostVoteCountErr db1 postID with
    | Except.error _ => w1
    | Except.ok oldUp =>
      match AddPostHot f.addPostHotErr w1.cache postID oldUp.Vote (oldUp.Vote + vote) with
      | (_, some _) => w1
      | (cache1, Option.none) =>
        let w2 : World := { w1 with cache := cache1 }
        if vote = 0 then w2
        else
          let notificationMsg : Message :=
            { Kind := MessageKindNotificationVote, From := FormatInt userID,
              To := FormatInt postID, Data := "" }
          match GetPostDetail f.getPostDetailErr db1 postID with
          | Except.error _ => w2
          | Except.ok post =>
            -- `userID = post.AuthorId`: the author goes into the log line only
            let _author := post.AuthorId
            { w2 with hub := (w2.hub.SendToUser notificationMsg).1,
                      handed := w2.handed ++ [notificationMsg] }

/-- The notification that `handleLikeMessage` builds. -/
def voteNotification (postID userID : Int) : Message :=
  { Kind := MessageKindNotificationVote, From := FormatInt userID,
    To := FormatInt postID, Data := "" }

/-- The first statement of the transaction fails on the data alone: the insert
meets the unique key, or the delete finds no row. -/
def voteRowRejected (db : DB) (postID userID vote : Int) : Prop :=
  match execVoteRow db postID userID vote with
  | Option.none => True
  | some (_, n) => n = 0

/-! ## Contexts and time -/

/-- Go `time.Second`, in the nanoseconds of `time.Duration`. -/
def Second : Int := 1000000000

/-- The constant `DelayDeleteTime` of `service/post.go`. -/
def DelayDeleteTime : Int := 2 * Second

/-- A Go `context.Context`, reduced to its deadline on the clock (nanoseconds);
`none` is a context without a deadline. -/
structure Context where
  deadline : Option Int
deriving DecidableEq, Repr

/-- Go `context.Background()`. -/
def Background : Context := ⟨Option.none⟩

/-- Go `context.WithTimeout(context.Background(), timeout)`, called when the
clock shows `now`. -/
def WithTimeout (now timeout : Int) : Context := ⟨some (now + timeout)⟩

/-- Go `ctx.Err()` when the clock shows `now`. -/
def Context.Err (ctx : Context) (now : Int) : Option Error :=
  match ctx.deadline with
  | some d => if d ≤ now then some Error.deadlineExceeded else Option.none
  | Option.none => Option.none

/-! ## Deleting from the cache (`cache/post.go`) -/

/-- The function `DeletePostSummary` of `cache/post.go`, called with `ctx` when
the clock shows `now`. The Redis client sends no command under a context
whose deadline has passed and returns the error of the context; `delErr` says
whether `DEL` fails for another reason. -/
def DeletePostSummary {S : Type} (delErr : Bool) (ctx : Context) (now : Int) (c : Cache S)
    (postID : Int) : Cache S × Option Error :=
  let key := GenerateRedisKey PostSummaryTemplate [FormatInt postID]
  match ctx.Err now with
  | some e => (c, some e)
  | Option.none =>
    if delErr then (c, some Error.backend)
    else ({ c with strings := Function.update c.strings key Option.none }, Option.none)

/-- Which commands of `cache.DeletePost` fail in this run. -/
structure DeleteFaults where
  delErr : Bool
  zremTimeErr : Bool
  zremHotErr : Bool
deriving DecidableEq, Repr

/-- A run of `cache.DeletePost` in which no command fails. -/
def DeleteFaults.none : DeleteFaults := ⟨false, false, false⟩

/-- The function `DeletePost` of `cache/post.go`. -/
def cache.DeletePost {S : Type} (f : DeleteFaults) (c : Cache S) (postID : Int) :
    Cache S × Option Error :=
  let key := GenerateRedisKey PostSummaryTemplate [FormatInt postID]
  if f.delErr then (c, some Error.backend)
  else
    let c1 : Cache S := { c with strings := Function.update c.strings key Option.none }
    if f.zremTimeErr then (c1, some Error.backend)
    else
      let timeKey := GenerateRedisKey PostTimeTemplate []
      let c2 : Cache S :=
        { c1 with zsets := Function.update c1.zsets timeKey
                    ((c1.zsets timeKey).zrem (FormatInt postID)) }
      if f.zremHotErr then (c2, some Error.backend)
      else
        let hotKey := GenerateRedisKey PostRankingTemplate []
        ({ c2 with zsets := Function.update c2.zsets hotKey
                     ((c2.zsets hotKey).zrem (FormatInt postID)) }, Option.none)

/-- The score of a post in the time-ordered set. -/
def timeScore {S : Type} (c : Cache S) (postID : Int) : Option S :=
  (c.zsets (GenerateRedisKey PostTimeTemplate [])).score (FormatInt postID)

/-- The cached summary object of a post. -/
def cachedSummary {S : Type} (c : Cache S) (postID : Int) : Option JSONObject :=
  c.strings (GenerateRedisKey PostSummaryTemplate [FormatInt postID])

/-! ## Updating a post (`dao/post.go`, `service/post.go`, `service/truncate.go`) -/

/-- The struct `apiError.ApiError`, reduced to its code. -/
structure ApiError where
  Code : Nat
deriving DecidableEq, Repr

/-- The constant `code.InvalidParam`. -/
def InvalidParam : Nat := 1001

/-- The constant `code.ServerError`. -/
def ServerError : Nat := 1005

/-- The constant `MaxSummaryLength` of `service/truncate.go`. -/
def MaxSummaryLength : Nat := 100

/-- The function `TruncateByWords` of `service/truncate.go`. -/
def TruncateByWords (s : String) (maxWords : Nat) : String :=
  if s.data.length ≤ maxWords then s
  else String.mk (s.data.take maxWords) ++ "..."

/-- Which statements of the transaction in `dao.UpdatePost` fail in this run. -/
structure UpdateTxFaults where
  postErr : Bool
  contentErr : Bool
  commitErr : Bool
deriving DecidableEq, Repr

/-- The function `UpdatePost` of `dao/post.go`. After a failed statement the
transaction is rolled back and the commit that follows returns an error, so the
store changes only when both statements and the commit succeed. -/
def dao.UpdatePost (f : UpdateTxFaults) (db : DB) (post : PostDetail) (summary : String) :
    DB × Option Error :=
  if post.PostID = 0 then (db, some Error.invalid)
  else if post.Title = "" then (db, some Error.invalid)
  else if post.Content = "" then (db, some Error.invalid)
  else if f.postErr ∨ f.contentErr ∨ f.commitErr then (db, some Error.backend)
  else
    ({ db with post := db.post.map (fun r =>
        if r.detail.PostID = post.PostID then
          { r with detail := { r.detail with Title := post.Title, Content := post.Content },
                   summary := summary }
        else r) }, Option.none)

/-- Which backend calls of `service.UpdatePost` fail in this run. -/
structure UpdateFaults where
  firstDeleteErr : Bool
  tx : UpdateTxFaults
deriving DecidableEq, Repr

/-- A run of `service.UpdatePost` in which no backend call fails. -/
def UpdateFaults.none : UpdateFaults := ⟨false, ⟨false, false, false⟩⟩

/-- What `service.UpdatePost` does to the outside. -/
inductive UpdateEffect where
  /-- The call `cache.DeletePostSummary(ctx, postID)`. -/
  | deletePostSummary (postID : Int)
  /-- The call `dao.UpdatePost(ctx, postDTO, summary)`. -/
  | daoUpdatePost (postID : Int)
  /-- The start of the detached task that deletes the summary of `postID`
  again after `delay`. -/
  | goDelayedDelete (postID : Int) (delay : Int)
deriving DecidableEq, Repr

/-- A run of `service.UpdatePost` so far: the cache and the store as the run
has left them, and the log of the effects it has issued, the oldest first. Each
entry of the log holds, next to the effect, what a read of the cached summary
of the post finds at the moment the effect is issued. -/
structure UpdateRun (S : Type) where
  cache : Cache S
  db : DB
  log : List (UpdateEffect × Option JSONObject)

/-- The call `cache.DeletePostSummary(ctx, postID)` in a run, when the clock
shows `now`. -/
def UpdateRun.callDeletePostSummary {S : Type} (r : UpdateRun S) (delErr : Bool)
    (ctx : Context) (now : Int) (postID : Int) : UpdateRun S × Option Error :=
  let out := DeletePostSummary delErr ctx now r.cache postID
  (⟨out.1, r.db,
    r.log ++ [(UpdateEffect.deletePostSummary postID, cachedSummary r.cache postID)]⟩, out.2)

/-- The call `dao.UpdatePost(ctx, postDTO, summary)` in a run. -/
def UpdateRun.callUpdatePost {S : Type} (r : UpdateRun S) (f : UpdateTxFaults)
    (post : PostDetail) (summary : String) : UpdateRun S × Option Error :=
  let out := dao.UpdatePost f r.db post summary
  (⟨r.cache, out.1,
    r.log ++ [(UpdateEffect.daoUpdatePost post.PostID, cachedSummary r.cache post.PostID)]⟩,
   out.2)

/-- The statement `go func() { ... }()` in a run: the detached task is started;
what it does when it runs is `delayedDelete`. -/
def UpdateRun.goDelayedDelete {S : Type} (r : UpdateRun S) (postID : Int) (delay : Int) :
    UpdateRun S :=
  ⟨r.cache, r.db,
    r.log ++ [(UpdateEffect.goDelayedDelete postID delay, cachedSummary r.cache postID)]⟩

/-- The outcome of `service.UpdatePost`: the cache and the store when it
returns, the log of its run, and the returned error. -/
structure UpdateOutcome (S : Type) where
  cache : Cache S
  db : DB
  log : List (UpdateEffect × Option JSONObject)
  err : Option ApiError

/-- The effects of a run of `service.UpdatePost`, in the order they are issued. -/
def UpdateOutcome.effects {S : Type} (o : UpdateOutcome S) : List UpdateEffect :=
  o.log.map Prod.fst

/-- The statement `return err` that ends a run. -/
def UpdateRun.returns {S : Type} (r : UpdateRun S) (err : Option ApiError) : UpdateOutcome S :=
  ⟨r.cache, r.db, r.log, err⟩

/-- The function `UpdatePost` of `service/post.go`, called with the request
context `ctx` when the clock shows `now`: its calls in the order of the source,
each acting on the run that the calls before it have left. -/
def service.UpdatePost {S : Type} (f : UpdateFaults) (ctx : Context) (now : Int)
    (c : Cache S) (db : DB) (postDTO : PostDetail) : UpdateOutcome S :=
  let r0 : UpdateRun S := ⟨c, db, []⟩
  match r0.callDeletePostSummary f.firstDeleteErr ctx now postDTO.PostID with
  | (r1, some _) => r1.returns (some ⟨ServerError⟩)
  | (r1, Option.none) =>
    if postDTO.PostID = 0 then r1.returns (some ⟨InvalidParam⟩)
    else
      let summary := TruncateByWords postDTO.Content MaxSummaryLength
      match r1.callUpdatePost f.tx postDTO summary with
      | (r2, some _) => r2.returns (some ⟨ServerError⟩)
      | (r2, Option.none) =>
        (r2.goDelayedDelete postDTO.PostID (2 * Second)).returns Option.none

/-- The detached task that `service.UpdatePost` starts. `start` is the clock
when the task makes its context with `DelayDeleteTime` as timeout;
`time.Sleep(2 * time.Second)` is called after that and returns no earlier than
2 seconds after it is called, `late` nanoseconds past `start + 2 s`; then the
summary is deleted under the context made at `start`. -/
def delayedDelete {S : Type} (delErr : Bool) (start : Int) (late : Nat) (c : Cache S)
    (postID : Int) : Cache S × Option Error :=
  let ctx := WithTimeout start DelayDeleteTime
  let woke := start + 2 * Second + (late : Int)
  DeletePostSummary delErr ctx woke c postID

/-! ## Listing posts (`dao/post.go`, `service/post.go`) -/

/-- The function `GetPostListBatch` of `dao/post.go`: the live rows of `post`
(with their joins) whose ID is among `postIDs`, scanned into summaries. The
integer columns are scanned into the `int64` fields of the summary. -/
def dao.GetPostListBatch (queryErr : Bool) (db : DB) (postIDs : List Int) :
    Except Error (List PostSummary) :=
  if queryErr then Except.error Error.backend
  else
    Except.ok ((db.post.filter (fun r => r.detail.PostID ∈ postIDs ∧ r.delete_time = 0)).map
      (fun r => ⟨Int64.ofInt r.detail.PostID, r.detail.Title, r.summary,
                 Int64.ofInt r.detail.AuthorId, r.detail.Username,
                 Int64.ofInt r.detail.CommunityID, r.detail.CommunityName⟩))

/-- Which backend calls of `service.GetPostList` fail in this run; `save k`
are the failures of the `k`-th `SavePost` of the refresh. -/
structure ListFaults where
  zrevrangeErr : Bool
  mgetErr : Bool
  batchErr : Bool
  save : Nat → SaveFaults

/-- A run of `service.GetPostList` in which no backend call fails. -/
def ListFaults.none : ListFaults := ⟨false, false, false, fun _ => SaveFaults.none⟩

/-- The detached task of `service.GetPostList`: `SavePost` for each post read
from the store, an error being logged and the loop going on. `clock k` are the
Unix second counts of the two calls of `time.Now()` in the `k`-th `SavePost`. -/
noncomputable def recachePosts (f : Nat → SaveFaults) (clock : Nat → Int × Int) :
    Nat → List PostSummary → Cache ℝ → Cache ℝ
  | _, [], c => c
  | k, post :: rest, c =>
    recachePosts f clock (k + 1) rest (SavePost (f k) (clock k).1 (clock k).2 c post).1

/-- The outcome of `service.GetPostList`: what it returns, and the cache once
its detached task has run. -/
structure ListOutcome where
  result : Except ApiError (List PostSummary)
  cache : Cache ℝ

/-- The function `GetPostList` of `service/post.go`. The `singleflight` group is
local to the call, so the function passed to it runs once for this call. -/
noncomputable def service.GetPostList (f : ListFaults) (clock : Nat → Int × Int)
    (c : Cache ℝ) (db : DB) (pageNum pageSize order : Int) : ListOutcome :=
  let pageNum1 := if pageNum ≤ 0 then 1 else pageNum
  let pageSize1 := if pageSize ≤ 0 then 10 else pageSize
  match GetPostIDs f.zrevrangeErr c order pageNum1 pageSize1 with
  | Except.error _ => ⟨Except.error ⟨ServerError⟩, c⟩
  | Except.ok postIDs =>
    match GetPostSummary f.mgetErr c postIDs with
    | Except.error _ => ⟨Except.error ⟨ServerError⟩, c⟩
    | Except.ok (redisList, missingIDs) =>
      if missingIDs.length = 0 then ⟨Except.ok redisList, c⟩
      else
        match dao.GetPostListBatch f.batchErr db missingIDs with
        | Except.error _ => ⟨Except.error ⟨ServerError⟩, c⟩
        | Except.ok list => ⟨Except.ok (redisList ++ list), recachePosts f.save clock 0 list c⟩

/-! ## Request coalescing (`service/singleFlightKey.go`, `service/post.go`, `service/vote_post.go`) -/

/-- The template `SingleFlightKeyPostList`. -/
def SingleFlightKeyPostList : String := "post_list_%d_%d_%d"

/-- The template `SingleFlightKeyPostDetail`. -/
def SingleFlightKeyPostDetail : String := "post_detail_%d"

/-- The template `SingleFlightKeyVotePost`. -/
def SingleFlightKeyVotePost : String := "vote_post_%d_%d"

/-- The template `SingleFlightKeyPostVoteCount`. -/
def SingleFlightKeyPostVoteCount : String := "post_vote_count_%d"

/-- Go `fmt.Sprintf` for a template whose only verb is `%d`: each `%d` is
replaced by the decimal form of the next integer parameter. -/
def sprintfD : List Char → List Int → List Char
  | '%' :: 'd' :: rest, p :: ps => (FormatInt p).data ++ sprintfD rest ps
  | c :: rest, ps => c :: sprintfD rest ps
  | [], _ => []

/-- The function `GenerateSingleFlightKey` of `service/singleFlightKey.go`. -/
def GenerateSingleFlightKey (template : String) (params : List Int) : String :=
  ⟨sprintfD template.data params⟩

/-- A `singleflight.Group`, reduced to the keys whose call is in flight. -/
structure Group where
  inflight : List String
deriving DecidableEq, Repr

/-- The zero value of `singleflight.Group`: no call in flight. -/
def Group.zero : Group := ⟨[]⟩

/-- The method `Do` of `singleflight.Group`, for a caller that arrives while the
calls recorded in the group are in flight. A caller whose key is in flight
waits for that call and shares its result without running its own function;
any other caller runs its function, and its key is in flight from then on.
The boolean says whether the caller's function runs. -/
def Group.Do (g : Group) (key : String) : Group × Bool :=
  if key ∈ g.inflight then (g, false) else (⟨key :: g.inflight⟩, true)

/-- The number of runs of the function passed to `Do` when the callers with the
listed keys use one shared group and all arrive before any call completes. -/
def sharedGroupRuns (g : Group) : List String → Nat
  | [] => 0
  | key :: rest => (if (g.Do key).2 then 1 else 0) + sharedGroupRuns (g.Do key).1 rest

/-- The number of fetches (runs of the function that reads the cache and the
store) made by concurrent calls of `service.GetPostList` with the listed
`(order, pageNum, pageSize)`. Each call declares `var group singleflight.Group`
in its own body and calls `Do` on that fresh group. -/
def GetPostListRuns : List (Int × Int × Int) → Nat
  | [] => 0
  | (order, pageNum, pageSize) :: rest =>
    (if (Group.zero.Do
          (GenerateSingleFlightKey SingleFlightKeyPostList [order, pageNum, pageSize])).2
      then 1 else 0) + GetPostListRuns rest

/-- The number of fetches made by concurrent calls of `service.GetVotePostCount`
for the listed posts, all arriving before any call completes: every call uses
the package variable `postVoteCountGroup`. -/
def GetVotePostCountRuns (postVoteCountGroup : Group) (postIDs : List Int) : Nat :=
  sharedGroupRuns postVoteCountGroup
    (postIDs.map (fun postID => GenerateSingleFlightKey SingleFlightKeyPostVoteCount [postID]))

/-- Modelled from the spec: the struct `kafka.Vote`, whose declaration is not
among the sources. Its fields are the ones `handleLikeMessage` and `VotePost`
use (`PostID` and `UserID` strings, `Vote` an `int`); the JSON member names are
taken as `post_id`, `user_id` and `vote`. -/
structure Vote where
  PostID : String
  UserID : String
  Vote : Int
deriving DecidableEq, Repr

/-- The function `VotePost` of `service/vote_post.go`, called while the calls
recorded in `voteGroup` are in flight: the group afterwards and the messages
handed to `kafka.SendLikeMessage`. -/
def VotePost (voteGroup : Group) (postID userID : Int) : Group × List Vote :=
  let key := GenerateSingleFlightKey SingleFlightKeyVotePost [postID, userID]
  ((voteGroup.Do key).1,
   if (voteGroup.Do key).2 then [⟨FormatInt postID, FormatInt userID, 1⟩] else [])

/-- The function `RevokeVotePost` of `service/vote_post.go`, called while the
calls recorded in `voteGroup` are in flight. -/
def RevokeVotePost (voteGroup : Group) (postID userID : Int) : Group × List Vote :=
  let key := GenerateSingleFlightKey SingleFlightKeyVotePost [postID, userID]
  ((voteGroup.Do key).1,
   if (voteGroup.Do key).2 then [⟨FormatInt postID, FormatInt userID, 0⟩] else [])

/-! ## Kafka topics and handlers (`kafka/kafka.go`, `kafka/manager.go`) -/

/-- The constant `TopicCreatePost`. -/
def TopicCreatePost : String := "post"

/-- The constant `TopicLike`. -/
def TopicLike : String := "like"

/-- The constant `TopicComment`. -/
def TopicComment : String := "comment"

/-- The constant `TopicNotification`. -/
def TopicNotification : String := "notification"

/-- The handler functions of `kafka/handles.go`, by name. -/
inductive Handler where
  | handleCreatePostMessage
  | handleLikeMessage
  | handleCommentMessage
deriving DecidableEq, Repr

/-- The map `handles` of `kafka/manager.go`; a topic it lacks gives the nil
function. -/
def handles (topic : String) : Option Handler :=
  if topic = TopicCreatePost then some Handler.handleCreatePostMessage
  else if topic = TopicLike then some Handler.handleLikeMessage
  else if topic = TopicComment then some Handler.handleCommentMessage
  else Option.none

/-- The topics for which `InitKafkaManager` makes a reader and starts
`startConsuming`. -/
def consumedTopics : List String :=
  [TopicCreatePost, TopicLike, TopicComment, TopicNotification]

/-- What a Go statement ends in: it completes, or the goroutine panics. -/
inductive Completion where
  | done
  | nilFuncPanic
deriving DecidableEq, Repr

/-- The statement `handles[topic](msg)` of `startConsuming` for a message read
from `topic`: the handler that runs, or the panic of calling a nil function. -/
def dispatch (topic : String) : Completion × Option Handler :=
  match handles topic with
  | some h => (Completion.done, some h)
  | Option.none => (Completion.nilFuncPanic, Option.none)

/-! ## Password digest (`pkg/encryption.go`) -/

/-- The hexadecimal digit of a number below 16, as `encoding/hex` writes it. -/
def hexDigit (n : Nat) : Char :=
  if n < 10 then Char.ofNat (48 + n) else Char.ofNat (87 + n)

/-- Go `hex.EncodeToString`: two lower-case hexadecimal digits per byte. -/
def hexEncode (bytes : List UInt8) : List Char :=
  bytes.flatMap (fun b => [hexDigit (b.toNat / 16), hexDigit (b.toNat % 16)])

/-- The function `EncryptPassword` of `pkg/encryption.go`. A Go string is a
sequence of bytes; `md5` is the digest function of `crypto/md5` and `secret` the
configured `PasswordSecret`. The hash is fed the secret, and `h.Sum(b)` returns
`b` followed by the digest of what the hash was fed. -/
def EncryptPassword (md5 : List UInt8 → List UInt8) (secret password : List UInt8) :
    List Char :=
  let h := md5 secret
  hexEncode (password ++ h)

/-! ## Decoding a vote message (`kafka/handles.go`) -/

/-- The value of a Kafka message as `json.Unmarshal` sees it: bytes that are not
a JSON object, or a JSON object. -/
inductive Payload where
  | invalid
  | object (o : JSONObject)
deriving DecidableEq, Repr

/-- One member of the object decoded into a `Vote`: a member of the right type
sets the field whose tag is its name, up to case folding; `null` and unknown
names change nothing; a member of another type, or an integer outside the
range of Go `int`, leaves its field as it was and is a type error. -/
def unmarshalVoteMember (v : Vote) (kv : String × JSONValue) : Vote × Option Error :=
  if foldName kv.1 = foldName "post_id" then
    match kv.2 with
    | JSONValue.str s => ({ v with PostID := s }, Option.none)
    | JSONValue.null => (v, Option.none)
    | _ => (v, some Error.unmarshal)
  else if foldName kv.1 = foldName "user_id" then
    match kv.2 with
    | JSONValue.str s => ({ v with UserID := s }, Option.none)
    | JSONValue.null => (v, Option.none)
    | _ => (v, some Error.unmarshal)
  else if foldName kv.1 = foldName "vote" then
    match kv.2 with
    | JSONValue.int n =>
      if -(2 ^ 63) ≤ n ∧ n < 2 ^ 63 then ({ v with Vote := n }, Option.none)
      else (v, some Error.unmarshal)
    | JSONValue.null => (v, Option.none)
    | _ => (v, some Error.unmarshal)
  else (v, Option.none)

/-- The members of an object decoded into a `Vote` one after the other. After
a type error in one member the decoder goes on with the other members; the
error returned is the first one. -/
def unmarshalVoteMembers : JSONObject → Vote → Vote × Option Error
  | [], into => (into, Option.none)
  | kv :: rest, into =>
    let step := unmarshalVoteMember into kv
    let tail := unmarshalVoteMembers rest step.1
    (tail.1, if step.2.isSome then step.2 else tail.2)

/-- Go `json.Unmarshal(msg.Value, &voteMsg)`: the struct after the call and the
returned error. Bytes that are not a JSON object leave the struct untouched. -/
def UnmarshalVote (data : Payload) (into : Vote) : Vote × Option Error :=
  match data with
  | Payload.invalid => (into, some Error.unmarshal)
  | Payload.object o => unmarshalVoteMembers o into

/-- Go `strconv.ParseInt(s, 10, 64)`: an optional sign followed by decimal
digits, within the `int64` range. -/
def ParseInt (s : String) : Except Error Int :=
  let signed : Bool × List Char :=
    match s.data with
    | '-' :: r => (true, r)
    | '+' :: r => (false, r)
    | r => (false, r)
  if signed.2 = [] ∨ ¬ signed.2.all Char.isDigit then Except.error Error.invalid
  else
    let un : Nat := signed.2.foldl (fun n ch => n * 10 + (ch.toNat - 48)) 0
    if signed.1 then (if un > 2 ^ 63 then Except.error Error.invalid else Except.ok (-(un : Int)))
    else (if un ≥ 2 ^ 63 then Except.error Error.invalid else Except.ok (un : Int))

/-- The function `handleLikeMessage` of `kafka/handles.go` from its first line:
`value` is the value of the Kafka message. The error of `json.Unmarshal` is
logged and the function goes on with the struct as the decoder left it. -/
noncomputable def handleLikeKafkaMessage (f : LikeFaults) (w : World) (value : Payload) :
    World :=
  let voteMsg := (UnmarshalVote value ⟨"", "", 0⟩).1
  match ParseInt voteMsg.PostID with
  | Except.error _ => w
  | Except.ok postID =>
    match ParseInt voteMsg.UserID with
    | Except.error _ => w
    | Except.ok userID => handleLikeMessage f w postID userID voteMsg.Vote

/-- The number that a list of decimal digits writes. -/
def digitsValue (l : List Char) : Nat :=
  l.foldl (fun n ch => n * 10 + (ch.toNat - 48)) 0

/-! ## Example states -/

/-- A store with post 1 of author 7, no vote yet and the counter at 0. -/
def exampleDB : DB :=
  { vote_post := [],
    content_votes := [⟨1, 0, 0⟩],
    post := [⟨⟨1, "t", "c", 7, "author", 3, "community", 1⟩, 0, "c"⟩],
    vote_post_unique := true }

/-- A world over `exampleDB`: post 1 has hotness score 0, nobody is connected. -/
noncomputable def exampleWorld : World :=
  { db := exampleDB,
    cache := ⟨fun _ => Option.none, fun k => if k = "post:ranking" then [("1", 0)] else []⟩,
    hub := newHub,
    handed := [] }

/-- A store in which post 1 has no row in `content_votes`. -/
def exampleDBNoCounter : DB :=
  { vote_post := [], content_votes := [], post := [], vote_post_unique := true }

/-- A message from user "B" to user "A". -/
def exampleMessage1 : Message := ⟨"text", "B", "A", "first"⟩

/-- A second message to user "A", from user "C". -/
def exampleMessage2 : Message := ⟨"text", "C", "A", "second"⟩

/-- A message to user "C". -/
def exampleMessage3 : Message := ⟨"text", "A", "C", "other"⟩

/-- Steps during which user "A" stays offline: "C" connects, two messages are
routed to "A", one to "C", and one is sent to "A" on the fast path. -/
def exampleSteps : List HubStep :=
  [HubStep.connect ⟨"C", []⟩, HubStep.route exampleMessage1, HubStep.route exampleMessage3,
   HubStep.sendToUser exampleMessage1, HubStep.route exampleMessage2]

/-- A cache whose hotness set holds the single post 7. -/
def exampleRanking : Cache Int :=
  ⟨fun _ => Option.none, fun k => if k = "post:ranking" then [("7", 1)] else []⟩

/-- A cache whose hotness set holds the posts 7, 10 and 9 with scores 3, 5 and 4. -/
def exampleRanking3 : Cache Int :=
  ⟨fun _ => Option.none,
   fun k => if k = "post:ranking" then [("7", 3), ("10", 5), ("9", 4)] else []⟩

/-- A post summary with an empty `Summary` and a zero `CommunityID`. -/
def exampleSummary : PostSummary := ⟨5, "title", "", 7, "author", 0, "community"⟩

/-- A store in which user 2 has voted for post 1 of author 7, and the counter
of post 1 is at 2. -/
def exampleDBVoted : DB :=
  { vote_post := [⟨1, 2⟩],
    content_votes := [⟨1, 2, 0⟩],
    post := [⟨⟨1, "t", "c", 7, "author", 3, "community", 1⟩, 0, "c"⟩],
    vote_post_unique := true }

/-- A world over `exampleDBVoted`: post 1 has hotness score 0, nobody is
connected. -/
noncomputable def exampleWorldVoted : World :=
  { db := exampleDBVoted,
    cache := ⟨fun _ => Option.none, fun k => if k = "post:ranking" then [("1", 0)] else []⟩,
    hub := newHub,
    handed := [] }

/-- A context whose deadline is far away. -/
def exampleContext : Context := ⟨some (1000 * Second)⟩

/-- A cache that holds the summary of post 5, ranked in both ordered sets. -/
def exampleFullCache : Cache Int :=
  ⟨fun k => if k = "post:id:5" then some (Marshal exampleSummary) else Option.none,
   fun k => if k = "post:ranking" then [("5", 2)]
            else if k = "post:time" then [("5", 1)] else []⟩

/-- A cache that holds the summary of post 1 and nothing else. -/
def exampleUpdateCache : Cache Int :=
  ⟨fun k => if k = "post:id:1" then some (Marshal ⟨1, "t", "c", 7, "author", 3, "community"⟩)
            else Option.none,
   fun _ => []⟩

/-- An update of post 1. -/
def examplePostUpdate : PostDetail := ⟨1, "new title", "new content", 7, "author", 3, "community", 1⟩

/-- A store with post 1, created at Unix time 1577808000, whose counter is at 3. -/
def exampleListDB : DB :=
  { vote_post := [⟨1, 2⟩, ⟨1, 3⟩, ⟨1, 4⟩],
    content_votes := [⟨1, 3, 0⟩],
    post := [⟨⟨1, "t", "c", 7, "author", 3, "community", 1⟩, 0, "c"⟩],
    vote_post_unique := true }

/-- A cache in which post 1 is ranked with the scores of 3 votes and creation
time 1577808000, and its summary is missing. -/
noncomputable def exampleListCache : Cache ℝ :=
  ⟨fun _ => Option.none,
   fun k => if k = "post:ranking" then [("1", hot 3 1577808000)]
            else if k = "post:time" then [("1", 1577808000)] else []⟩

/-- A clock that shows Unix time 1577853000 at every call. -/
def exampleClock : Nat → Int × Int := fun _ => (1577853000, 1577853000)

/-- A cache over the reals that holds nothing. -/
def exampleEmptyCache : Cache ℝ := ⟨fun _ => Option.none, fun _ => []⟩

/-- A message value whose `post_id` and `user_id` are well formed and whose
`vote` is a string, not a number. -/
def exampleBadVotePayload : Payload :=
  Payload.object [("post_id", JSONValue.str "1"), ("user_id", JSONValue.str "2"),
                  ("vote", JSONValue.str "up")]

/-- The summary of post 1 of `exampleDB`. -/
def exampleSummary1 : PostSummary := ⟨1, "t", "c", 7, "author", 3, "community"⟩

/-- The cache after post 1 was saved and then deleted. -/
noncomputable def exampleDeletedCache : Cache ℝ :=
  (cache.DeletePost DeleteFaults.none
    (SavePost SaveFaults.none 1577808000 1577808000 exampleEmptyCache exampleSummary1).1 1).1

/-- A world in which post 1 was removed from the cache and its rows are still in
the store. -/
noncomputable def exampleDeletedWorld : World :=
  { db := exampleDB, cache := exampleDeletedCache, hub := newHub, handed := [] }

/-- A digest function standing in for `crypto/md5` in examples: 16 zero bytes. -/
def exampleDigest : List UInt8 → List UInt8 := fun _ => List.replicate 16 0

theorem find_execCounter (rows : List ContentVotesRow) (postID vote : Int) :
    (execCounter rows postID vote).find? (fun r => r.post_id = postID ∧ r.delete_time = 0)
      = (rows.find? (fun r => r.post_id = postID ∧ r.delete_time = 0)).map
          (fun r => { r with vote := if vote > 0 then r.vote + 1 else r.vote - 1 }) := by
  induction rows with
  | nil => rfl
  | cons r rs ih =>
    unfold execCounter at ih ⊢
    by_cases h : r.post_id = postID ∧ r.delete_time = 0
    · simp [List.find?, h]
    · simp only [List.map_cons, h, if_false, List.find?, decide_False]
      exact ih

theorem voteCounter_execCounter (db : DB) (rows : List VotePostRow) (postID vote : Int) :
    voteCounter { db with vote_post := rows,
                          content_votes := execCounter db.content_votes postID vote } postID
      = (voteCounter db postID).map (fun x => if vote > 0 then x + 1 else x - 1) := by
  simp only [voteCounter, find_execCounter, Option.map_map]
  rfl

theorem AddPostVoteWithTx_ok (f : TxFaults) (db : DB) (postID userID vote : Int)
    (h : (AddPostVoteWithTx f db postID userID vote).2 = Option.none) :
    ∃ rows n, execVoteRow db postID userID vote = some (rows, n) ∧ n ≠ 0 ∧
      AddPostVoteWithTx f db postID userID vote =
        ({ db with vote_post := rows,
                   content_votes := execCounter db.content_votes postID vote }, Option.none) := by
  unfold AddPostVoteWithTx at h ⊢
  by_cases h1 : f.beginErr = true
  · simp [h1] at h
  by_cases h2 : f.voteRowErr = true
  · simp [h1, h2] at h
  simp only [h1, h2, if_false, Bool.false_eq_true] at h ⊢
  cases hx : execVoteRow db postID userID vote with
  | none => simp [hx] at h
  | some rn =>
    obtain ⟨rows, n⟩ := rn
    simp only [hx] at h ⊢
    by_cases h3 : n = 0
    · simp [h3] at h
    by_cases h4 : f.counterErr = true
    · simp [h3, h4] at h
    by_cases h5 : f.commitErr = true
    · simp [h3, h4, h5] at h
    exact ⟨rows, n, rfl, h3, by simp [h3, h4, h5]⟩

theorem GetPostVoteCount_of_voteCounter (db : DB) (postID x : Int)
    (h : voteCounter db postID = some x) :
    ∃ cnt, GetPostVoteCount false db postID = Except.ok cnt ∧ cnt.Vote = x := by
  unfold voteCounter at h
  unfold GetPostVoteCount
  cases hf : db.content_votes.find? (fun r => r.post_id = postID ∧ r.delete_time = 0) with
  | none => rw [hf] at h; cases h
  | some r =>
    rw [hf] at h
    exact ⟨⟨r.post_id, r.vote⟩, by simp, by simpa using h⟩

theorem GetPostVoteCount_ok (db : DB) (postID : Int) :
    ∃ cnt, GetPostVoteCount false db postID = Except.ok cnt := by
  unfold GetPostVoteCount
  cases db.content_votes.find? (fun r => r.post_id = postID ∧ r.delete_time = 0) with
  | none => exact ⟨_, rfl⟩
  | some r => exact ⟨_, rfl⟩

/-! ### Helper lemmas: sorted sets -/

theorem ZSet.score_zadd {S : Type} (z : ZSet S) (s : S) (m : String) :
    (z.zadd s m).score m = some s := by
  simp [ZSet.zadd, ZSet.score, List.find?]

/-! ### Helper lemmas: the vote worker -/

theorem handleLikeMessage_noFaults (w : World) (postID userID vote : Int) (db1 : DB)
    (cnt : PostVoteCounts)
    (h : AddPostVoteWithTx TxFaults.none w.db postID userID vote = (db1, Option.none))
    (hc : GetPostVoteCount false db1 postID = Except.ok cnt) :
    handleLikeMessage LikeFaults.none w postID userID vote =
      if vote = 0 then
        { db := db1,
          cache := (AddPostHot false w.cache postID cnt.Vote (cnt.Vote + vote)).1,
          hub := w.hub, handed := w.handed }
      else
        { db := db1,
          cache := (AddPostHot false w.cache postID cnt.Vote (cnt.Vote + vote)).1,
          hub := (w.hub.SendToUser (voteNotification postID userID)).1,
          handed := w.handed ++ [voteNotification postID userID] } := by
  unfold handleLikeMessage
  simp only [LikeFaults.none, h, hc, AddPostHot, GetPostDetail, voteNotification,
    Bool.false_eq_true, if_false]
  by_cases hv : vote = 0
  · simp [hv]
  · simp only [hv, if_false]
    cases db1.post.find? (fun r => r.detail.PostID = postID ∧ r.delete_time = 0) <;> rfl

theorem deltaHot_succ_ne (u : Int) (hu : 0 ≤ u) :
    deltaHot (u + 1) (u + 1 + 1) ≠ log10 (max ((u + 1 : Int) : ℝ) 1) - log10 (max ((u : Int) : ℝ) 1) := by
  have hu' : (0 : ℝ) ≤ (u : ℝ) := by exact_mod_cast hu
  have h1 : max (((u + 1 : Int)) : ℝ) 1 = (u : ℝ) + 1 := by
    push_cast; exact max_eq_left (by linarith)
  have h2 : max (((u + 1 + 1 : Int)) : ℝ) 1 = (u : ℝ) + 2 := by
    push_cast; rw [max_eq_left (by linarith)]; ring
  unfold deltaHot log10
  rw [h1, h2]
  intro h
  rcases hu.eq_or_lt with h0 | hpos
  · subst h0
    simp at h
    norm_num at h
  · have hu1 : (1 : ℝ) ≤ (u : ℝ) := by exact_mod_cast hpos
    rw [max_eq_left hu1] at h
    rw [← Real.logb_div (by linarith) (by linarith), ← Real.logb_div (by linarith) (by linarith)] at h
    have hinj := Real.logb_injOn_pos (b := 10) (by norm_num)
      (show ((u : ℝ) + 2) / ((u : ℝ) + 1) ∈ Set.Ioi (0 : ℝ) from div_pos (by linarith) (by linarith))
      (show ((u : ℝ) + 1) / (u : ℝ) ∈ Set.Ioi (0 : ℝ) from div_pos (by linarith) (by linarith)) h
    rw [div_eq_div_iff (by linarith) (by linarith)] at hinj
    nlinarith


/-! ### Helper lemmas: the hub -/

theorem Hub.connect_user (h : Hub) (client : Client) :
    (h.connect client).Clients client.User
        = some { client with Send := client.Send ++ (h.Messages client.User).getD [] }
    ∧ (h.connect client).Messages client.User = Option.none := by
  unfold Hub.connect
  cases hm : h.Messages client.User with
  | none => simp [hm]
  | some ms => simp

theorem Hub.connect_other (h : Hub) (client : Client) (u : String) (hu : u ≠ client.User) :
    (h.connect client).Clients u = h.Clients u
    ∧ (h.connect client).Messages u = h.Messages u := by
  unfold Hub.connect
  cases hm : h.Messages client.User with
  | none => simp [Function.update_noteq hu]
  | some ms => simp [Function.update_noteq hu]

theorem Hub.step_offline (h : Hub) (A : String) (s : HubStep) (hoff : h.Clients A = Option.none)
    (hs : ∀ c, s = HubStep.connect c → c.User ≠ A) :
    (h.step s).Clients A = Option.none
    ∧ ((h.step s).Messages A).getD [] = (h.Messages A).getD [] ++ routedTo A [s] := by
  cases s with
  | connect c =>
    have hne : A ≠ c.User := fun e => hs c rfl e.symm
    obtain ⟨h1, h2⟩ := Hub.connect_other h c A hne
    simp [Hub.step, h1, h2, hoff, routedTo]
  | disconnect c =>
    by_cases e : A = c.User
    · simp [Hub.step, Hub.disconnect, routedTo, e]
    · simp [Hub.step, Hub.disconnect, routedTo, Function.update_noteq e, hoff]
  | route m =>
    cases hc : h.Clients m.To with
    | some cl =>
      have hne : A ≠ m.To := by
        intro e; rw [e, hc] at hoff; cases hoff
      have hne2 : ¬ m.To = A := fun e => hne e.symm
      simp [Hub.step, Hub.route, hc, routedTo, Function.update_noteq hne, hoff, hne2]
    | none =>
      by_cases e : m.To = A
      · subst e
        simp [Hub.step, Hub.route, hc, routedTo]
      · have hne : A ≠ m.To := fun e2 => e e2.symm
        simp [Hub.step, Hub.route, hc, routedTo, Function.update_noteq hne, hoff, e]
  | sendToUser m =>
    cases hc : h.Clients m.To with
    | some cl =>
      have hne : A ≠ m.To := by
        intro e; rw [e, hc] at hoff; cases hoff
      simp [Hub.step, Hub.SendToUser, hc, routedTo, Function.update_noteq hne, hoff]
    | none =>
      simp [Hub.step, Hub.SendToUser, hc, routedTo, hoff]

theorem routedTo_cons (A : String) (s : HubStep) (steps : List HubStep) :
    routedTo A (s :: steps) = routedTo A [s] ++ routedTo A steps := by
  simp only [routedTo, List.filterMap_cons, List.filterMap_nil]
  split <;> simp

theorem Hub.run_offline (A : String) (steps : List HubStep) :
    ∀ h : Hub, h.Clients A = Option.none →
      (∀ c, HubStep.connect c ∈ steps → c.User ≠ A) →
      (h.run steps).Clients A = Option.none
      ∧ ((h.run steps).Messages A).getD [] = (h.Messages A).getD [] ++ routedTo A steps := by
  induction steps with
  | nil => intro h hoff _; simp [Hub.run, routedTo, hoff]
  | cons s rest ih =>
    intro h hoff hs
    obtain ⟨h1, h2⟩ := Hub.step_offline h A s hoff
      (fun c e => hs c (by rw [e]; exact List.mem_cons_self _ _))
    obtain ⟨h3, h4⟩ := ih (h.step s) h1 (fun c hc => hs c (List.mem_cons_of_mem _ hc))
    have hrun : h.run (s :: rest) = (h.step s).run rest := rfl
    rw [hrun, routedTo_cons, ← List.append_assoc, ← h2]
    exact ⟨h3, h4⟩

theorem Hub.step_invariant (h : Hub) (s : HubStep)
    (hinv : ∀ u, h.Messages u ≠ Option.none → h.Clients u = Option.none) :
    ∀ u, (h.step s).Messages u ≠ Option.none → (h.step s).Clients u = Option.none := by
  intro u hu
  cases s with
  | connect c =>
    by_cases e : u = c.User
    · subst e
      exact absurd (Hub.connect_user h c).2 hu
    · obtain ⟨h1, h2⟩ := Hub.connect_other h c u e
      simp only [Hub.step] at hu ⊢
      rw [h1]; rw [h2] at hu
      exact hinv u hu
  | disconnect c =>
    simp only [Hub.step, Hub.disconnect] at hu ⊢
    by_cases e : u = c.User
    · rw [e, Function.update_same]
    · rw [Function.update_noteq e]; exact hinv u hu
  | route m =>
    cases hc : h.Clients m.To with
    | some cl =>
      simp only [Hub.step, Hub.route, hc] at hu ⊢
      have hoff := hinv u hu
      have hne : u ≠ m.To := by
        intro e; rw [e, hc] at hoff; cases hoff
      rw [Function.update_noteq hne]; exact hoff
    | none =>
      simp only [Hub.step, Hub.route, hc] at hu ⊢
      by_cases e : u = m.To
      · rw [e]; exact hc
      · rw [Function.update_noteq e] at hu; exact hinv u hu
  | sendToUser m =>
    cases hc : h.Clients m.To with
    | some cl =>
      simp only [Hub.step, Hub.SendToUser, hc] at hu ⊢
      have hoff := hinv u hu
      have hne : u ≠ m.To := by
        intro e; rw [e, hc] at hoff; cases hoff
      rw [Function.update_noteq hne]; exact hoff
    | none =>
      simp only [Hub.step, Hub.SendToUser, hc] at hu ⊢
      exact hinv u hu

/-! ### Helper lemmas: pages of a sorted set -/

theorem wrap64_of_range (x : Int) (h1 : -(2 ^ 63) ≤ x) (h2 : x < 2 ^ 63) : wrap64 x = x := by
  unfold wrap64
  rw [Int.emod_eq_of_lt (by omega) (by omega)]
  omega

instance ZSet.revLE_total {S : Type} [LinearOrder S] :
    IsTotal (String × S) ZSet.revLE :=
  ⟨fun a b => by
    unfold ZSet.revLE
    rcases lt_trichotomy a.2 b.2 with h | h | h
    · exact Or.inr (Or.inl h)
    · rcases le_total a.1 b.1 with h' | h'
      · exact Or.inr (Or.inr ⟨h, h'⟩)
      · exact Or.inl (Or.inr ⟨h.symm, h'⟩)
    · exact Or.inl (Or.inl h)⟩

instance ZSet.revLE_trans {S : Type} [LinearOrder S] :
    IsTrans (String × S) ZSet.revLE :=
  ⟨fun a b c hab hbc => by
    unfold ZSet.revLE at *
    rcases hab with h | ⟨h, h'⟩ <;> rcases hbc with k | ⟨k, k'⟩
    · exact Or.inl (lt_trans k h)
    · exact Or.inl (by rw [k]; exact h)
    · exact Or.inl (by rw [← h]; exact k)
    · exact Or.inr ⟨by rw [k, h], le_trans k' h'⟩⟩

theorem ZSet.revOrder_scores {S : Type} [LinearOrder S] (z : ZSet S) :
    z.revOrder.Pairwise (fun a b => b.2 ≤ a.2) := by
  have hs : List.Sorted ZSet.revLE z.revOrder := List.sorted_insertionSort _ z
  refine List.Pairwise.imp ?_ hs
  intro a b hab
  rcases hab with h | ⟨h, -⟩
  · exact le_of_lt h
  · exact le_of_eq h

theorem ZSet.rankWindow_scores {S : Type} [LinearOrder S] (z : ZSet S) (start count : Nat) :
    (z.rankWindow start count).Pairwise (fun a b => b.2 ≤ a.2) :=
  ((z.revOrder_scores).sublist (List.drop_sublist _ _)).sublist (List.take_sublist _ _)

theorem ZSet.ZRevRange_window {S : Type} [LinearOrder S] (z : ZSet S) (start stop : Int)
    (h0 : 0 ≤ start) (h1 : start ≤ stop) :
    z.ZRevRange start stop
      = (z.rankWindow start.toNat (stop - start + 1).toNat).map (fun e => e.1) := by
  have hlen : z.revOrder.length = z.length := List.length_insertionSort _ z
  unfold ZSet.ZRevRange ZSet.rankWindow
  simp only [show ¬ start < 0 from by omega, show ¬ stop < 0 from by omega, if_false]
  by_cases hpast : start ≥ (z.length : Int)
  · have hd : z.revOrder.drop start.toNat = [] := by
      apply List.drop_eq_nil_of_le
      rw [hlen]; omega
    simp [hpast, hd]
  · simp only [show ¬ (start > stop ∨ start ≥ (z.length : Int)) from by omega, if_false]
    by_cases hcut : stop ≥ (z.length : Int)
    · simp only [hcut, if_true]
      congr 1
      rw [List.take_of_length_le, List.take_of_length_le]
      · rw [List.length_drop, hlen]; omega
      · rw [List.length_drop, hlen]; omega
    · simp only [hcut, if_false]

/-! ### Helper lemmas: the JSON form of a summary -/

theorem Unmarshal_append (a b : JSONObject) :
    ∀ p : PostSummary, Unmarshal (a ++ b) p
      = match Unmarshal a p with
        | Except.ok q => Unmarshal b q
        | Except.error e => Except.error e := by
  induction a with
  | nil => intro p; rfl
  | cons kv rest ih =>
    intro p
    simp only [List.cons_append, Unmarshal]
    cases unmarshalMember p kv with
    | error e => rfl
    | ok q => exact ih q

theorem decodeInt_val (x old : Int64) : decodeInt (JSONValue.int x.val) old = Except.ok x := by
  simp only [decodeInt, x.property, and_self, dite_true]

theorem Unmarshal_omitemptyInt (name : String) (v : Int64) (p : PostSummary)
    (put : PostSummary → Int64 → PostSummary)
    (hmember : ∀ q (x : Int64),
      unmarshalMember q (name, JSONValue.int x.val) = Except.ok (put q x))
    (hzero : v = 0 → put p v = p) :
    Unmarshal (omitemptyInt name v) p = Except.ok (put p v) := by
  unfold omitemptyInt
  by_cases h : v.val = 0
  · have hv : v = 0 := Subtype.ext h
    simp only [h, if_true, Unmarshal]
    rw [hzero hv]
  · simp only [h, if_false, Unmarshal, hmember]

theorem Unmarshal_omitemptyString (name : String) (v : String) (p : PostSummary)
    (put : PostSummary → String → PostSummary)
    (hmember : ∀ q x, unmarshalMember q (name, JSONValue.str x) = Except.ok (put q x))
    (hzero : v = "" → put p v = p) :
    Unmarshal (omitemptyString name v) p = Except.ok (put p v) := by
  unfold omitemptyString
  by_cases h : v = ""
  · simp only [h, if_true, Unmarshal]
    rw [← h, hzero h]
  · simp only [h, if_false, Unmarshal, hmember]

theorem Unmarshal_Marshal (p : PostSummary) :
    Unmarshal (Marshal p) PostSummary.zero = Except.ok p := by
  obtain ⟨a, b, c, d, e, f, g⟩ := p
  unfold Marshal
  simp only [Unmarshal_append]
  rw [Unmarshal_omitemptyInt "post_id" a PostSummary.zero (fun q x => { q with PostID := x })
    (fun q x => by simp [unmarshalMember, decodeInt_val]; rfl) (fun h => by rw [h]; rfl)]
  simp only []
  rw [Unmarshal_omitemptyString "title" b _ (fun q x => { q with Title := x })
    (fun q x => rfl) (fun h => by rw [h]; rfl)]
  simp only []
  rw [Unmarshal_omitemptyString "summary" c _ (fun q x => { q with Summary := x })
    (fun q x => rfl) (fun h => by rw [h]; rfl)]
  simp only []
  rw [Unmarshal_omitemptyInt "author_id" d _ (fun q x => { q with AuthorId := x })
    (fun q x => by simp [unmarshalMember, decodeInt_val]; rfl) (fun h => by rw [h]; rfl)]
  simp only []
  rw [Unmarshal_omitemptyString "author_name" e _ (fun q x => { q with Username := x })
    (fun q x => rfl) (fun h => by rw [h]; rfl)]
  simp only []
  rw [Unmarshal_omitemptyInt "community_id" f _ (fun q x => { q with CommunityID := x })
    (fun q x => by simp [unmarshalMember, decodeInt_val]; rfl) (fun h => by rw [h]; rfl)]
  simp only []
  rw [Unmarshal_omitemptyString "community_name" g _ (fun q x => { q with CommunityName := x })
    (fun q x => rfl) (fun h => by rw [h]; rfl)]

theorem hot_of_nonneg (n unix : Int) (hn : 0 ≤ n) :
    hot n unix = log10 (max (n : ℝ) 1) + ((unix : ℝ) - 1577808000) / 45000 := by
  have hn' : (0 : ℝ) ≤ (n : ℝ) := by exact_mod_cast hn
  unfold hot
  simp only [sub_zero, Int.cast_sub, Int.cast_ofNat, abs_of_nonneg hn']
  rcases hn'.eq_or_lt with h0 | hpos
  · rw [← h0]
    simp [log10]
  · simp [hpos]

theorem log10_five_bounds : (65 : ℝ) / 93 < Real.logb 10 5 ∧ Real.logb 10 5 < 137 / 196 := by
  have h10 : (1 : ℝ) < 10 := by norm_num
  have hself : Real.logb 10 10 = 1 := Real.logb_self_eq_one h10
  constructor
  · have h : Real.logb 10 ((10 : ℝ) ^ 65) < Real.logb 10 ((5 : ℝ) ^ 93) :=
      Real.logb_lt_logb h10 (by positivity) (by norm_num)
    rw [Real.logb_pow, Real.logb_pow, hself] at h
    rw [div_lt_iff₀ (by norm_num)]
    push_cast at h
    linarith
  · have h : Real.logb 10 ((5 : ℝ) ^ 196) < Real.logb 10 ((10 : ℝ) ^ 137) :=
      Real.logb_lt_logb h10 (by positivity) (by norm_num)
    rw [Real.logb_pow, Real.logb_pow, hself] at h
    rw [lt_div_iff₀ (by norm_num)]
    push_cast at h
    linarith

/-! ### Helper lemmas: failed and repeated persistence -/

theorem handleLikeMessage_of_tx_error (f : LikeFaults) (w : World) (postID userID vote : Int)
    (hfail : (AddPostVoteWithTx f.tx w.db postID userID vote).2 ≠ Option.none) :
    handleLikeMessage f w postID userID vote = w := by
  unfold handleLikeMessage
  cases h : AddPostVoteWithTx f.tx w.db postID userID vote with
  | mk db1 e =>
    cases e with
    | none => rw [h] at hfail; exact absurd rfl hfail
    | some e => rfl

theorem handleLikeMessage_db (f : LikeFaults) (w : World) (postID userID vote : Int) :
    (handleLikeMessage f w postID userID vote).db
      = (AddPostVoteWithTx f.tx w.db postID userID vote).1 := by
  by_cases hfail : (AddPostVoteWithTx f.tx w.db postID userID vote).2 = Option.none
  · obtain ⟨rows, n, -, -, htx⟩ := AddPostVoteWithTx_ok _ _ _ _ _ hfail
    unfold handleLikeMessage
    rw [htx]
    simp only []
    split
    · rfl
    · split
      · rfl
      · split
        · rfl
        · split <;> rfl
  · rw [handleLikeMessage_of_tx_error f w postID userID vote hfail]
    unfold AddPostVoteWithTx at hfail ⊢
    split
    · rfl
    · split
      · rfl
      · split
        · rfl
        · split
          · rfl
          · split
            · rfl
            · rename_i h1 _ _ _ _ h3 h4 h5
              simp [h1, h3, h4, h5] at hfail
              simp_all

theorem AddPostVoteWithTx_of_rejected (f : TxFaults) (db : DB) (postID userID vote : Int)
    (h : voteRowRejected db postID userID vote) :
    (AddPostVoteWithTx f db postID userID vote).2 ≠ Option.none := by
  intro hok
  obtain ⟨rows, n, hexec, hn, -⟩ := AddPostVoteWithTx_ok _ _ _ _ _ hok
  unfold voteRowRejected at h
  rw [hexec] at h
  exact hn h

theorem voteRowRejected_of_error (db : DB) (postID userID vote : Int)
    (h : (AddPostVoteWithTx TxFaults.none db postID userID vote).2 ≠ Option.none) :
    voteRowRejected db postID userID vote := by
  unfold voteRowRejected
  unfold AddPostVoteWithTx at h
  simp only [TxFaults.none, Bool.false_eq_true, if_false] at h
  cases hx : execVoteRow db postID userID vote with
  | none => trivial
  | some rn =>
    obtain ⟨rows, n⟩ := rn
    rw [hx] at h
    by_cases hn : n = 0
    · exact hn
    · simp [hn] at h

theorem voteRowRejected_after_ok (f : TxFaults) (db : DB) (postID userID vote : Int)
    (hunique : db.vote_post_unique = true)
    (hok : (AddPostVoteWithTx f db postID userID vote).2 = Option.none) :
    voteRowRejected (AddPostVoteWithTx f db postID userID vote).1 postID userID vote := by
  obtain ⟨rows, n, hexec, -, htx⟩ := AddPostVoteWithTx_ok _ _ _ _ _ hok
  rw [htx]
  unfold voteRowRejected
  unfold execVoteRow at hexec ⊢
  by_cases hv : vote > 0
  · simp only [hv, if_true] at hexec ⊢
    split at hexec
    · cases hexec
    · simp only [Option.some.injEq, Prod.mk.injEq] at hexec
      rw [← hexec.1]
      simp [hunique]
  · simp only [hv, if_false, Option.some.injEq, Prod.mk.injEq] at hexec ⊢
    rw [← hexec.1]
    simp [List.filter_filter]

theorem handleLikeMessage_again_of_unique (f1 f2 : LikeFaults) (w : World)
    (postID userID vote : Int) (hunique : w.db.vote_post_unique = true)
    (hfirst : (AddPostVoteWithTx f1.tx w.db postID userID vote).2 = Option.none
      ∨ f1.tx = TxFaults.none) :
    (AddPostVoteWithTx f2.tx (handleLikeMessage f1 w postID userID vote).db
        postID userID vote).2 ≠ Option.none
    ∧ handleLikeMessage f2 (handleLikeMessage f1 w postID userID vote) postID userID vote
        = handleLikeMessage f1 w postID userID vote := by
  have hrej : voteRowRejected (handleLikeMessage f1 w postID userID vote).db
      postID userID vote := by
    rw [handleLikeMessage_db]
    by_cases hok : (AddPostVoteWithTx f1.tx w.db postID userID vote).2 = Option.none
    · exact voteRowRejected_after_ok _ _ _ _ _ hunique hok
    · rcases hfirst with h | h
      · exact absurd h hok
      · rw [h] at hok ⊢
        have hrej0 := voteRowRejected_of_error _ _ _ _ hok
        have hsame : (AddPostVoteWithTx TxFaults.none w.db postID userID vote).1 = w.db := by
          have := handleLikeMessage_db ⟨TxFaults.none, false, false, false⟩ w postID userID vote
          rw [handleLikeMessage_of_tx_error ⟨TxFaults.none, false, false, false⟩ w postID
            userID vote hok] at this
          exact this.symm
        rw [hsame]
        exact hrej0
  have hfail := AddPostVoteWithTx_of_rejected f2.tx _ _ _ _ hrej
  exact ⟨hfail, handleLikeMessage_of_tx_error f2 _ postID userID vote hfail⟩

/-! ### Helper lemmas: writes of the cache -/

theorem ZSet.score_zrem {S : Type} (z : ZSet S) (m : String) : (z.zrem m).score m = Option.none := by
  unfold ZSet.zrem ZSet.score
  rw [Option.map_eq_none', List.find?_eq_none]
  intro e he
  have := (List.mem_filter.mp he).2
  simpa using this

theorem SavePost_scores (c : Cache ℝ) (now1 now2 : Int) (p : PostSummary) :
    cachedSummary (SavePost SaveFaults.none now1 now2 c p).1 p.PostID.val = some (Marshal p)
    ∧ timeScore (SavePost SaveFaults.none now1 now2 c p).1 p.PostID.val = some (now1 : ℝ)
    ∧ hotScore (SavePost SaveFaults.none now1 now2 c p).1 p.PostID.val = some (hot 0 now2) := by
  have hne : GenerateRedisKey PostTimeTemplate [] ≠ GenerateRedisKey PostRankingTemplate [] := by
    decide
  refine ⟨?_, ?_, ?_⟩
  · simp [SavePost, SaveFaults.none, cachedSummary]
  · simp [SavePost, SaveFaults.none, timeScore, Function.update_noteq hne, ZSet.score_zadd]
  · simp [SavePost, SaveFaults.none, hotScore, ZSet.score_zadd]

/-! ### Helper lemmas: updating a post -/

theorem DeletePostSummary_deleted {S : Type} (delErr : Bool) (ctx : Context) (now : Int)
    (c : Cache S) (postID : Int)
    (h : (DeletePostSummary delErr ctx now c postID).2 = Option.none) :
    cachedSummary (DeletePostSummary delErr ctx now c postID).1 postID = Option.none := by
  unfold DeletePostSummary at h ⊢
  split
  · rename_i e he
    rw [he] at h
    cases h
  · rename_i he
    rw [he] at h
    by_cases hd : delErr = true
    · simp [hd] at h
    · simp [hd, cachedSummary]

theorem UpdatePost_run {S : Type} (f : UpdateFaults) (ctx : Context) (now : Int)
    (c : Cache S) (db : DB) (postDTO : PostDetail) :
    service.UpdatePost f ctx now c db postDTO
      = if (DeletePostSummary f.firstDeleteErr ctx now c postDTO.PostID).2 = Option.none then
          if postDTO.PostID = 0 then
            ⟨(DeletePostSummary f.firstDeleteErr ctx now c postDTO.PostID).1, db,
              [(UpdateEffect.deletePostSummary postDTO.PostID, cachedSummary c postDTO.PostID)],
              some ⟨InvalidParam⟩⟩
          else if (dao.UpdatePost f.tx db postDTO
              (TruncateByWords postDTO.Content MaxSummaryLength)).2 = Option.none then
            ⟨(DeletePostSummary f.firstDeleteErr ctx now c postDTO.PostID).1,
              (dao.UpdatePost f.tx db postDTO
                (TruncateByWords postDTO.Content MaxSummaryLength)).1,
              [(UpdateEffect.deletePostSummary postDTO.PostID, cachedSummary c postDTO.PostID),
               (UpdateEffect.daoUpdatePost postDTO.PostID, Option.none),
               (UpdateEffect.goDelayedDelete postDTO.PostID (2 * Second), Option.none)],
              Option.none⟩
          else
            ⟨(DeletePostSummary f.firstDeleteErr ctx now c postDTO.PostID).1,
              (dao.UpdatePost f.tx db postDTO
                (TruncateByWords postDTO.Content MaxSummaryLength)).1,
              [(UpdateEffect.deletePostSummary postDTO.PostID, cachedSummary c postDTO.PostID),
               (UpdateEffect.daoUpdatePost postDTO.PostID, Option.none)],
              some ⟨ServerError⟩⟩
        else
          ⟨(DeletePostSummary f.firstDeleteErr ctx now c postDTO.PostID).1, db,
            [(UpdateEffect.deletePostSummary postDTO.PostID, cachedSummary c postDTO.PostID)],
            some ⟨ServerError⟩⟩ := by
  have hdel := DeletePostSummary_deleted f.firstDeleteErr ctx now c postDTO.PostID
  unfold service.UpdatePost
  simp only [UpdateRun.callDeletePostSummary, List.nil_append]
  cases h1 : DeletePostSummary f.firstDeleteErr ctx now c postDTO.PostID with
  | mk c1 e1 =>
    rw [h1] at hdel
    cases e1 with
    | some e => simp [UpdateRun.returns]
    | none =>
      have hc1 : cachedSummary c1 postDTO.PostID = Option.none := hdel rfl
      by_cases hid : postDTO.PostID = 0
      · simp [hid, UpdateRun.returns]
      · simp only [hid, if_false, if_true, UpdateRun.callUpdatePost]
        cases h2 : dao.UpdatePost f.tx db postDTO
            (TruncateByWords postDTO.Content MaxSummaryLength) with
        | mk db1 e2 =>
          cases e2 with
          | some e => simp [UpdateRun.returns, hc1]
          | none => simp [UpdateRun.returns, UpdateRun.goDelayedDelete, hc1]

/-! ### Helper lemmas: request coalescing -/

theorem GetPostListRuns_length (calls : List (Int × Int × Int)) :
    GetPostListRuns calls = calls.length := by
  induction calls with
  | nil => rfl
  | cons call rest ih =>
    obtain ⟨order, pageNum, pageSize⟩ := call
    simp only [GetPostListRuns, Group.Do, Group.zero, List.not_mem_nil, if_false, if_true,
      ih, List.length_cons]
    omega

theorem sharedGroupRuns_inflight (key : String) (n : Nat) :
    ∀ g : Group, key ∈ g.inflight → sharedGroupRuns g (List.replicate n key) = 0 := by
  induction n with
  | zero => intro g _; rfl
  | succ n ih =>
    intro g hin
    simp only [List.replicate_succ, sharedGroupRuns, Group.Do, hin, if_true]
    simpa using ih g hin

theorem sharedGroupRuns_replicate (key : String) (n : Nat) :
    sharedGroupRuns Group.zero (List.replicate (n + 1) key) = 1 := by
  simp only [List.replicate_succ, sharedGroupRuns, Group.Do, Group.zero, List.not_mem_nil,
    if_false, if_true]
  rw [sharedGroupRuns_inflight key n ⟨[key]⟩ (List.mem_singleton.mpr rfl)]

/-! ### Helper lemmas: hexadecimal encoding -/

theorem hexEncode_append (a b : List UInt8) : hexEncode (a ++ b) = hexEncode a ++ hexEncode b := by
  simp [hexEncode]

theorem hexEncode_length (a : List UInt8) : (hexEncode a).length = 2 * a.length := by
  induction a with
  | nil => rfl
  | cons x xs ih =>
    have hcons : hexEncode (x :: xs)
        = hexDigit (x.toNat / 16) :: hexDigit (x.toNat % 16) :: hexEncode xs := by
      simp [hexEncode]
    rw [hcons, List.length_cons, List.length_cons, ih, List.length_cons]
    omega

/-! ### Helper lemmas: decimal forms and coalescing keys -/

theorem digitChar_value (k : Nat) (hk : k < 10) : (Nat.digitChar k).toNat - 48 = k := by
  interval_cases k <;> rfl

theorem digitChar_plain (k : Nat) (hk : k < 10) :
    Nat.digitChar k ≠ '_' ∧ Nat.digitChar k ≠ '-' := by
  interval_cases k <;> decide

theorem toDigitsCore_append (fuel : Nat) :
    ∀ (n : Nat) (ds : List Char),
      Nat.toDigitsCore 10 fuel n ds = Nat.toDigitsCore 10 fuel n [] ++ ds := by
  induction fuel with
  | zero => intro n ds; rfl
  | succ fuel ih =>
    intro n ds
    simp only [Nat.toDigitsCore]
    by_cases h : n / 10 = 0
    · simp [h]
    · simp only [h, if_false]
      rw [ih (n / 10) (Nat.digitChar (n % 10) :: ds), ih (n / 10) [Nat.digitChar (n % 10)]]
      simp

theorem digitsValue_append_single (l : List Char) (c : Char) :
    digitsValue (l ++ [c]) = digitsValue l * 10 + (c.toNat - 48) := by
  simp [digitsValue, List.foldl_append]

theorem toDigitsCore_value (fuel : Nat) :
    ∀ n : Nat, n < fuel → digitsValue (Nat.toDigitsCore 10 fuel n []) = n := by
  induction fuel with
  | zero => intro n hn; omega
  | succ fuel ih =>
    intro n hn
    simp only [Nat.toDigitsCore]
    have hmod : n % 10 < 10 := Nat.mod_lt _ (by decide)
    by_cases h : n / 10 = 0
    · simp only [h, if_true]
      have : digitsValue [Nat.digitChar (n % 10)] = (Nat.digitChar (n % 10)).toNat - 48 := by
        simp [digitsValue]
      rw [this, digitChar_value _ hmod]
      omega
    · simp only [h, if_false]
      rw [toDigitsCore_append fuel (n / 10) [Nat.digitChar (n % 10)],
        digitsValue_append_single, ih (n / 10) (by omega), digitChar_value _ hmod]
      omega

theorem toDigitsCore_plain (fuel : Nat) :
    ∀ (n : Nat) (ds : List Char), ∀ c ∈ Nat.toDigitsCore 10 fuel n ds,
      c ∈ ds ∨ (c ≠ '_' ∧ c ≠ '-') := by
  induction fuel with
  | zero => intro n ds c hc; exact Or.inl hc
  | succ fuel ih =>
    intro n ds c hc
    simp only [Nat.toDigitsCore] at hc
    have hmod : n % 10 < 10 := Nat.mod_lt _ (by decide)
    by_cases h : n / 10 = 0
    · simp only [h, if_true, List.mem_cons] at hc
      rcases hc with hc | hc
      · exact Or.inr (hc ▸ digitChar_plain _ hmod)
      · exact Or.inl hc
    · simp only [h, if_false] at hc
      rcases ih _ _ c hc with hc' | hc'
      · rcases List.mem_cons.mp hc' with hc'' | hc''
        · exact Or.inr (hc'' ▸ digitChar_plain _ hmod)
        · exact Or.inl hc''
      · exact Or.inr hc'

theorem toDigits_value (n : Nat) : digitsValue (Nat.toDigits 10 n) = n :=
  toDigitsCore_value (n + 1) n (Nat.lt_succ_self n)

theorem toDigits_plain (n : Nat) : ∀ c ∈ Nat.toDigits 10 n, c ≠ '_' ∧ c ≠ '-' := by
  intro c hc
  rcases toDigitsCore_plain (n + 1) n [] c hc with h | h
  · cases h
  · exact h

theorem FormatInt_ofNat (m : Nat) : (FormatInt (Int.ofNat m)).data = Nat.toDigits 10 m := rfl

theorem FormatInt_negSucc (m : Nat) :
    (FormatInt (Int.negSucc m)).data = '-' :: Nat.toDigits 10 (m + 1) := rfl

theorem FormatInt_no_separator (i : Int) : '_' ∉ (FormatInt i).data := by
  intro hmem
  cases i with
  | ofNat m =>
    rw [FormatInt_ofNat] at hmem
    exact (toDigits_plain m _ hmem).1 rfl
  | negSucc m =>
    rw [FormatInt_negSucc] at hmem
    rcases List.mem_cons.mp hmem with h | h
    · exact absurd h (by decide)
    · exact (toDigits_plain _ _ h).1 rfl

theorem FormatInt_data_injective (i j : Int) (h : (FormatInt i).data = (FormatInt j).data) :
    i = j := by
  cases i with
  | ofNat m =>
    cases j with
    | ofNat m' =>
      rw [FormatInt_ofNat, FormatInt_ofNat] at h
      have := congrArg digitsValue h
      rw [toDigits_value, toDigits_value] at this
      rw [this]
    | negSucc m' =>
      rw [FormatInt_ofNat, FormatInt_negSucc] at h
      have hmem : '-' ∈ Nat.toDigits 10 m := by rw [h]; exact List.mem_cons_self _ _
      exact absurd rfl (toDigits_plain m _ hmem).2
  | negSucc m =>
    cases j with
    | ofNat m' =>
      rw [FormatInt_ofNat, FormatInt_negSucc] at h
      have hmem : '-' ∈ Nat.toDigits 10 m' := by rw [← h]; exact List.mem_cons_self _ _
      exact absurd rfl (toDigits_plain m' _ hmem).2
    | negSucc m' =>
      rw [FormatInt_negSucc, FormatInt_negSucc] at h
      have := congrArg digitsValue (List.cons.inj h).2
      rw [toDigits_value, toDigits_value] at this
      have hm : m = m' := by omega
      rw [hm]

theorem append_separator_inj :
    ∀ (a a' r r' : List Char), '_' ∉ a → '_' ∉ a' → a ++ '_' :: r = a' ++ '_' :: r' →
      a = a' ∧ r = r' := by
  intro a
  induction a with
  | nil =>
    intro a' r r' _ ha' h
    cases a' with
    | nil => exact ⟨rfl, (List.cons.inj h).2⟩
    | cons x xs =>
      have hx : '_' = x := (List.cons.inj h).1
      exact absurd (hx ▸ List.mem_cons_self _ _) ha'
  | cons y ys ih =>
    intro a' r r' ha ha' h
    cases a' with
    | nil =>
      have hy : y = '_' := (List.cons.inj h).1
      exact absurd (hy ▸ List.mem_cons_self _ _) ha
    | cons x xs =>
      obtain ⟨hxy, htail⟩ := List.cons.inj h
      obtain ⟨h1, h2⟩ := ih xs r r' (fun hm => ha (List.mem_cons_of_mem _ hm))
        (fun hm => ha' (List.mem_cons_of_mem _ hm)) htail
      exact ⟨by rw [hxy, h1], h2⟩

/-! ### The claims -/

/-- C1 (code bug): when a positive vote intent is persisted on a post whose
stored vote count is `u ≥ 0`, the count becomes `u + 1`, but the worker reads the
count back after the update and passes it on as the old count: the hotness
score changes by `log10(max(u+2,1)) - log10(max(u+1,1))`, which differs from the
specified `log10(max(u+1,1)) - log10(max(u,1))`. -/
theorem handleLikeMessage_delta_uses_updated_count (w : World) (postID userID u : Int)
    (hu : 0 ≤ u) (hcount : voteCounter w.db postID = some u)
    (hok : (AddPostVoteWithTx TxFaults.none w.db postID userID 1).2 = Option.none) :
    voteCounter (handleLikeMessage LikeFaults.none w postID userID 1).db postID = some (u + 1)
    ∧ hotScore (handleLikeMessage LikeFaults.none w postID userID 1).cache postID
        = some ((hotScore w.cache postID).getD 0
            + (log10 (max ((u + 2 : Int) : ℝ) 1) - log10 (max ((u + 1 : Int) : ℝ) 1)))
    ∧ log10 (max ((u + 2 : Int) : ℝ) 1) - log10 (max ((u + 1 : Int) : ℝ) 1)
        ≠ log10 (max ((u + 1 : Int) : ℝ) 1) - log10 (max ((u : Int) : ℝ) 1) := by
  obtain ⟨rows, n, -, -, htx⟩ := AddPostVoteWithTx_ok _ _ _ _ _ hok
  have hcnt1 := voteCounter_execCounter w.db rows postID 1
  rw [hcount] at hcnt1
  simp only [Option.map_some', show (1 : Int) > 0 from by decide, if_true] at hcnt1
  obtain ⟨cnt, hget, hval⟩ := GetPostVoteCount_of_voteCounter _ _ _ hcnt1
  have hrun := handleLikeMessage_noFaults w postID userID 1 _ cnt htx hget
  simp only [show (1 : Int) ≠ 0 from by decide, if_false] at hrun
  have hd := deltaHot_succ_ne u hu
  have e2 : u + 1 + 1 = u + 2 := by ring
  rw [e2] at hd
  refine ⟨by rw [hrun]; exact hcnt1, ?_, ?_⟩
  · rw [hrun, hval]
    simp only [AddPostHot, hotScore, Bool.false_eq_true, if_false, Function.update_same,
      ZSet.zincrby, ZSet.score_zadd, deltaHot, e2]
  · simpa only [deltaHot] using hd

/-- C1, at a concrete input: the first vote on post 1 (count 0, score 0) raises
the score by `log10 2`, where the specified change is `0`. -/
theorem handleLikeMessage_delta_uses_updated_count_witness :
    voteCounter (handleLikeMessage LikeFaults.none exampleWorld 1 2 1).db 1 = some (0 + 1)
    ∧ hotScore (handleLikeMessage LikeFaults.none exampleWorld 1 2 1).cache 1
        = some ((hotScore exampleWorld.cache 1).getD 0
            + (log10 (max ((0 + 2 : Int) : ℝ) 1) - log10 (max ((0 + 1 : Int) : ℝ) 1)))
    ∧ log10 (max ((0 + 2 : Int) : ℝ) 1) - log10 (max ((0 + 1 : Int) : ℝ) 1)
        ≠ log10 (max ((0 + 1 : Int) : ℝ) 1) - log10 (max ((0 : Int) : ℝ) 1) :=
  handleLikeMessage_delta_uses_updated_count exampleWorld 1 2 0 (by decide) (by decide)
    (by decide)


/-- C2: for every integer vote count `s` and every creation instant with Unix
second count `unix`, `hot` equals `sign(s) * log10(max(|s|,1)) +
(unix - 1577808000)/45000`, where `sign(s)` is `1`, `-1` or `0` as `s` is
positive, negative or zero. -/
theorem hot_eq_formula (s : Int) (unix : Int) :
    hot s unix =
      (if s > 0 then (1 : ℝ) else if s < 0 then -1 else 0)
          * Real.logb 10 (max ((|s| : Int) : ℝ) 1)
        + ((unix : ℝ) - 1577808000) / 45000 := by
  simp only [hot, log10, sub_zero, Int.cast_abs, Int.cast_pos, Int.cast_lt_zero,
    Int.cast_sub, Int.cast_ofNat]

/-- C3 (code bug): a positive vote on a post that has no live row in
`content_votes` is committed: `AddPostVoteWithTx` returns nil and inserts the
vote row, and no counter changes. The second statement matches no row, and its
`RowsAffected` is not looked at. -/
theorem AddPostVoteWithTx_vote_row_without_counter :
    AddPostVoteWithTx TxFaults.none exampleDBNoCounter 1 7 1
        = ({ exampleDBNoCounter with vote_post := [⟨1, 7⟩] }, Option.none)
    ∧ (AddPostVoteWithTx TxFaults.none exampleDBNoCounter 1 7 1).1.vote_post
        ≠ exampleDBNoCounter.vote_post
    ∧ (AddPostVoteWithTx TxFaults.none exampleDBNoCounter 1 7 1).1.content_votes
        = exampleDBNoCounter.content_votes
    ∧ voteCounter (AddPostVoteWithTx TxFaults.none exampleDBNoCounter 1 7 1).1 1
        = voteCounter exampleDBNoCounter 1 := by
  decide

/-- C4 (code bug): for a positive vote intent by user `userID` on post `postID`
that is persisted and scored, the one message handed to the hub has kind
`notification_vote` and `From` the voter, but its `To` is the decimal form of
the post ID: the author read from the store is not put into the message. -/
theorem handleLikeMessage_notifies_post_id (w : World) (postID userID vote : Int)
    (hv : vote > 0)
    (hok : (AddPostVoteWithTx TxFaults.none w.db postID userID vote).2 = Option.none) :
    (handleLikeMessage LikeFaults.none w postID userID vote).handed
      = w.handed ++ [{ Kind := "notification_vote", From := FormatInt userID,
                       To := FormatInt postID, Data := "" }] := by
  obtain ⟨rows, n, -, -, htx⟩ := AddPostVoteWithTx_ok _ _ _ _ _ hok
  obtain ⟨cnt, hget⟩ := GetPostVoteCount_ok
    { w.db with vote_post := rows,
                content_votes := execCounter w.db.content_votes postID vote } postID
  rw [handleLikeMessage_noFaults w postID userID vote _ cnt htx hget]
  simp only [show vote ≠ 0 from by omega, if_false]
  rfl

/-- C4, at a concrete input: user 2 votes for post 1, whose author is user 7;
the message handed to the hub is addressed to "1". -/
theorem handleLikeMessage_notifies_post_id_witness :
    (GetPostDetail false exampleWorld.db 1).toOption.map (fun d => d.AuthorId) = some 7
    ∧ (handleLikeMessage LikeFaults.none exampleWorld 1 2 1).handed
        = [] ++ [{ Kind := "notification_vote", From := "2", To := "1", Data := "" }] :=
  ⟨by decide, handleLikeMessage_notifies_post_id exampleWorld 1 2 1 (by decide) (by decide)⟩

/-- C5: let user `A` have no live connection and no mailbox, and let any
sequence of hub steps follow in which `A` does not connect. When `A` then
connects, the outbound queue of its client receives exactly the messages that
the loop routed to `A`, in the order they were routed, and `A` has no mailbox
afterwards. -/
theorem connect_receives_routed_in_order (h : Hub) (A : String) (steps : List HubStep)
    (client : Client) (hoff : h.Clients A = Option.none) (hbox : h.Messages A = Option.none)
    (hsteps : ∀ c, HubStep.connect c ∈ steps → c.User ≠ A) (hclient : client.User = A) :
    ((h.run steps).connect client).Clients A
        = some { client with Send := client.Send ++ routedTo A steps }
    ∧ ((h.run steps).connect client).Messages A = Option.none := by
  obtain ⟨-, hmail⟩ := Hub.run_offline A steps h hoff hsteps
  rw [hbox] at hmail
  simp only [Option.getD_none, List.nil_append] at hmail
  subst hclient
  obtain ⟨h1, h2⟩ := Hub.connect_user (h.run steps) client
  rw [hmail] at h1
  exact ⟨h1, h2⟩

/-- C5, at a concrete input: after `exampleSteps` on the empty hub, a fresh
client of "A" receives the two messages routed to "A", in order. -/
theorem connect_receives_routed_in_order_witness :
    ((newHub.run exampleSteps).connect ⟨"A", []⟩).Clients "A"
        = some ⟨"A", [exampleMessage1, exampleMessage2]⟩
    ∧ ((newHub.run exampleSteps).connect ⟨"A", []⟩).Messages "A" = Option.none :=
  connect_receives_routed_in_order newHub "A" exampleSteps ⟨"A", []⟩ rfl rfl
    (by
      intro c hc
      simp only [exampleSteps, List.mem_cons, HubStep.connect.injEq, List.mem_singleton,
        reduceCtorEq, or_false, List.not_mem_nil] at hc
      rw [hc]
      decide)
    rfl

/-- C6: when the recipient of a message has no entry in the live-subscriber
map, `SendToUser` returns nil and the hub is as before: the live-subscriber map
and every mailbox are unchanged, and the recipient has the mailbox entry it had
(none, if it had none). -/
theorem SendToUser_offline_noop (h : Hub) (message : Message)
    (hoff : h.Clients message.To = Option.none) :
    (h.SendToUser message).2 = Option.none
    ∧ (h.SendToUser message).1.Clients = h.Clients
    ∧ (h.SendToUser message).1.Messages = h.Messages := by
  simp [Hub.SendToUser, hoff]

/-- C6, at a concrete input: on the empty hub a message to "A" creates no
mailbox for "A". -/
theorem SendToUser_offline_noop_witness :
    (newHub.SendToUser exampleMessage1).2 = Option.none
    ∧ (newHub.SendToUser exampleMessage1).1.Clients = newHub.Clients
    ∧ (newHub.SendToUser exampleMessage1).1.Messages = newHub.Messages :=
  SendToUser_offline_noop newHub exampleMessage1 rfl

/-- C7: in every hub state reachable from the empty hub by `connect`,
`disconnect`, `route` and `SendToUser` steps, a user with a mailbox entry has no
entry in the live-subscriber map; and a `connect` step leaves its user
registered and without a mailbox entry. -/
theorem mailbox_only_while_offline (h : Hub) (hr : Hub.Reachable h) :
    (∀ u, h.Messages u ≠ Option.none → h.Clients u = Option.none)
    ∧ ∀ client : Client,
        (h.connect client).Clients client.User ≠ Option.none
        ∧ (h.connect client).Messages client.User = Option.none := by
  constructor
  · induction hr with
    | init => intro u hu; exact absurd rfl hu
    | step h s _ ih => exact Hub.step_invariant h s ih
  · intro client
    obtain ⟨h1, h2⟩ := Hub.connect_user h client
    exact ⟨by rw [h1]; exact Option.some_ne_none _, h2⟩

/-- C7, at a concrete input: after one message is routed to "A" on the empty
hub, "A" has a mailbox and no live entry; connecting "A" removes the mailbox. -/
theorem mailbox_only_while_offline_witness :
    (newHub.step (HubStep.route exampleMessage1)).Messages "A" ≠ Option.none
    ∧ (newHub.step (HubStep.route exampleMessage1)).Clients "A" = Option.none
    ∧ (((newHub.step (HubStep.route exampleMessage1)).connect ⟨"A", []⟩).Clients "A"
          ≠ Option.none
        ∧ ((newHub.step (HubStep.route exampleMessage1)).connect ⟨"A", []⟩).Messages "A"
          = Option.none) :=
  ⟨by decide,
   (mailbox_only_while_offline _ (Hub.Reachable.step _ _ Hub.Reachable.init)).1 "A" (by decide),
   (mailbox_only_while_offline _ (Hub.Reachable.step _ _ Hub.Reachable.init)).2 ⟨"A", []⟩⟩

/-- C8 (as amended): for `order` hot or time, `pageNum ≥ 1`, `pageSize ≥ 1` and
a last rank `(pageNum-1)*pageSize + pageSize - 1` below `2^63`, when the
backend answers, `GetPostIDs` returns (as integers) exactly the members at the
ranks `(pageNum-1)*pageSize` to `(pageNum-1)*pageSize + pageSize - 1` of the
chosen set in reverse score order: at most `pageSize` of them, their scores
non-increasing, and none, with a nil error, when the first rank is past the end
of the set. -/
theorem GetPostIDs_page {S : Type} [LinearOrder S] (c : Cache S)
    (order pageNum pageSize : Int)
    (horder : order = OrderByHot ∨ order = OrderByTime)
    (hnum : 1 ≤ pageNum) (hsize : 1 ≤ pageSize)
    (hfit : (pageNum - 1) * pageSize + pageSize - 1 < 2 ^ 63) :
    GetPostIDs false c order pageNum pageSize
        = Except.ok
            (((c.zsets (if order = OrderByHot then "post:ranking" else "post:time")).rankWindow
                ((pageNum - 1) * pageSize).toNat pageSize.toNat).map (fun e => Atoi e.1))
    ∧ ((c.zsets (if order = OrderByHot then "post:ranking" else "post:time")).rankWindow
          ((pageNum - 1) * pageSize).toNat pageSize.toNat).length ≤ pageSize.toNat
    ∧ ((c.zsets (if order = OrderByHot then "post:ranking" else "post:time")).rankWindow
          ((pageNum - 1) * pageSize).toNat pageSize.toNat).Pairwise (fun a b => b.2 ≤ a.2)
    ∧ (((c.zsets (if order = OrderByHot then "post:ranking" else "post:time")).length : Int)
          ≤ (pageNum - 1) * pageSize →
        GetPostIDs false c order pageNum pageSize = Except.ok []) := by
  have hkey : GenerateRedisKey (caseTemplateMap order) []
      = (if order = OrderByHot then "post:ranking" else "post:time") := by
    rcases horder with h | h <;> subst h <;> decide
  have hprod : 0 ≤ (pageNum - 1) * pageSize := Int.mul_nonneg (by omega) (by omega)
  have hstart : wrap64 ((pageNum - 1) * pageSize) = (pageNum - 1) * pageSize :=
    wrap64_of_range _ (by omega) (by omega)
  have hstop : wrap64 ((pageNum - 1) * pageSize + pageSize - 1)
      = (pageNum - 1) * pageSize + pageSize - 1 :=
    wrap64_of_range _ (by omega) (by omega)
  have hrun : GetPostIDs false c order pageNum pageSize
      = Except.ok
          (((c.zsets (if order = OrderByHot then "post:ranking" else "post:time")).rankWindow
              ((pageNum - 1) * pageSize).toNat pageSize.toNat).map (fun e => Atoi e.1)) := by
    unfold GetPostIDs
    simp only [hkey, hstart, hstop, Bool.false_eq_true, if_false]
    rw [ZSet.ZRevRange_window _ _ _ hprod (by omega), List.map_map]
    have hcount : (pageNum - 1) * pageSize + pageSize - 1 - (pageNum - 1) * pageSize + 1
        = pageSize := by ring
    rw [hcount]
    rfl
  refine ⟨hrun, ?_, ZSet.rankWindow_scores _ _ _, ?_⟩
  · unfold ZSet.rankWindow
    exact List.length_take_le _ _
  · intro hpast
    rw [hrun]
    have hlen : (c.zsets (if order = OrderByHot then "post:ranking" else "post:time")).revOrder.length
        = (c.zsets (if order = OrderByHot then "post:ranking" else "post:time")).length :=
      List.length_insertionSort _ _
    have hd : (c.zsets (if order = OrderByHot then "post:ranking" else "post:time")).revOrder.drop
        ((pageNum - 1) * pageSize).toNat = [] := by
      apply List.drop_eq_nil_of_le
      rw [hlen]; omega
    simp [ZSet.rankWindow, hd]

/-- C8, at a concrete input: page 2 of size 2 of a hotness set of three posts is
the post of least score. -/
theorem GetPostIDs_page_witness :
    GetPostIDs false exampleRanking3 1 2 2
        = Except.ok
            (((exampleRanking3.zsets (if (1 : Int) = OrderByHot then "post:ranking" else "post:time")).rankWindow
                ((2 - 1) * 2 : Int).toNat (2 : Int).toNat).map (fun e => Atoi e.1))
    ∧ GetPostIDs false exampleRanking3 1 2 2 = Except.ok [7] :=
  ⟨(GetPostIDs_page exampleRanking3 1 2 2 (Or.inl rfl) (by decide) (by decide) (by decide)).1,
   rfl⟩

/-- C8 (counterexample): with `pageNum = 2^58 + 1` and `pageSize = 64` the
product `(pageNum - 1) * pageSize` is `2^64`, which a 64-bit `int` holds as 0:
`GetPostIDs` returns the first page, although the first rank asked for is past
the end of the set and the specified result is the empty list. -/
theorem GetPostIDs_page_overflow :
    (1 : Int) ≤ 2 ^ 58 + 1 ∧ (1 : Int) ≤ 64
    ∧ ((exampleRanking.zsets "post:ranking").length : Int) ≤ (2 ^ 58 + 1 - 1) * 64
    ∧ GetPostIDs false exampleRanking OrderByHot (2 ^ 58 + 1) 64 = Except.ok [7]
    ∧ GetPostIDs false exampleRanking OrderByHot (2 ^ 58 + 1) 64 ≠ Except.ok [] := by
  refine ⟨by decide, by decide, by decide, rfl, ?_⟩
  rw [show GetPostIDs false exampleRanking OrderByHot (2 ^ 58 + 1) 64 = Except.ok [7] from rfl]
  intro h
  cases h

/-- C9: for every post summary `p` and every cache, when no backend command
fails, `SavePost p` returns nil and `GetPostSummary [p.PostID]` on the cache it
leaves returns the one-element list `[p]`, no missing ID and a nil error: the
JSON object written with its zero fields left out decodes to `p` again. -/
theorem SavePost_GetPostSummary_roundtrip (c : Cache ℝ) (now1 now2 : Int) (p : PostSummary) :
    (SavePost SaveFaults.none now1 now2 c p).2 = Option.none
    ∧ GetPostSummary false (SavePost SaveFaults.none now1 now2 c p).1 [p.PostID.val]
        = Except.ok ([p], []) := by
  refine ⟨rfl, ?_⟩
  simp only [SavePost, SaveFaults.none, GetPostSummary, MGet, Bool.false_eq_true, if_false,
    List.map_cons, List.map_nil, Function.update_same, scanSummaries, Unmarshal_Marshal,
    false_or, List.cons_ne_nil]

/-- C11 (code bug): `SavePost` and `cache.DeletePost` issue their three writes
as separate commands and return at the first one that fails, so a part of the
writes stays applied while an error is returned. On the empty cache, `SavePost`
whose second command fails returns an error and has written the summary of
post 5, the ordered sets being untouched; when its third command fails, post 5
is in the time-ordered set and not in the hotness-ordered set. On a cache that
holds post 5, `cache.DeletePost` whose second command fails returns an error
and has deleted the summary, while post 5 stays in both ordered sets. -/
theorem SavePost_DeletePost_partial_write :
    (SavePost ⟨false, true, false⟩ 100 100 exampleEmptyCache exampleSummary).2
        = some Error.backend
    ∧ cachedSummary exampleEmptyCache 5 = Option.none
    ∧ cachedSummary (SavePost ⟨false, true, false⟩ 100 100 exampleEmptyCache exampleSummary).1 5
        = some (Marshal exampleSummary)
    ∧ timeScore (SavePost ⟨false, true, false⟩ 100 100 exampleEmptyCache exampleSummary).1 5
        = Option.none
    ∧ (SavePost ⟨false, false, true⟩ 100 100 exampleEmptyCache exampleSummary).2
        = some Error.backend
    ∧ timeScore (SavePost ⟨false, false, true⟩ 100 100 exampleEmptyCache exampleSummary).1 5
        = some ((100 : Int) : ℝ)
    ∧ hotScore (SavePost ⟨false, false, true⟩ 100 100 exampleEmptyCache exampleSummary).1 5
        = Option.none
    ∧ (cache.DeletePost ⟨false, true, false⟩ exampleFullCache 5).2 = some Error.backend
    ∧ cachedSummary exampleFullCache 5 = some (Marshal exampleSummary)
    ∧ cachedSummary (cache.DeletePost ⟨false, true, false⟩ exampleFullCache 5).1 5 = Option.none
    ∧ timeScore (cache.DeletePost ⟨false, true, false⟩ exampleFullCache 5).1 5 = some 1
    ∧ hotScore (cache.DeletePost ⟨false, true, false⟩ exampleFullCache 5).1 5 = some 2 := by
  refine ⟨rfl, rfl, rfl, rfl, rfl, rfl, rfl, rfl, rfl, rfl, rfl, rfl⟩

/-- C12 (code bug): the detached task of `UpdatePost` never deletes anything.
Its context is made with a timeout of 2 seconds before it sleeps 2 seconds, so
the deadline has passed whenever `DeletePostSummary` is called: the call
returns `context.DeadlineExceeded` and the cache is as it was; a summary that
a reader put back stays cached. A successful `UpdatePost` starts this task. -/
theorem delayedDelete_deadline_passed {S : Type} (delErr : Bool) (start : Int) (late : Nat)
    (c : Cache S) (db : DB) (ctx : Context) (now : Int) (postDTO : PostDetail) :
    delayedDelete delErr start late c postDTO.PostID = (c, some Error.deadlineExceeded)
    ∧ cachedSummary (delayedDelete delErr start late c postDTO.PostID).1 postDTO.PostID
        = cachedSummary c postDTO.PostID
    ∧ ((service.UpdatePost UpdateFaults.none ctx now c db postDTO).err = Option.none →
        UpdateEffect.goDelayedDelete postDTO.PostID (2 * Second)
          ∈ (service.UpdatePost UpdateFaults.none ctx now c db postDTO).effects) := by
  have hrun : delayedDelete delErr start late c postDTO.PostID
      = (c, some Error.deadlineExceeded) := by
    have hle : start + DelayDeleteTime ≤ start + 2 * Second + (late : Int) := by
      have : (0 : Int) ≤ (late : Int) := Int.ofNat_nonneg late
      unfold DelayDeleteTime
      omega
    simp [delayedDelete, DeletePostSummary, WithTimeout, Context.Err, hle]
  refine ⟨hrun, by rw [hrun], ?_⟩
  intro herr
  rw [UpdatePost_run] at herr ⊢
  by_cases h1 : (DeletePostSummary UpdateFaults.none.firstDeleteErr ctx now c postDTO.PostID).2
      = Option.none
  · simp only [h1, if_true] at herr ⊢
    by_cases hid : postDTO.PostID = 0
    · simp [hid] at herr
    · simp only [hid, if_false] at herr ⊢
      by_cases h2 : (dao.UpdatePost UpdateFaults.none.tx db postDTO
          (TruncateByWords postDTO.Content MaxSummaryLength)).2 = Option.none
      · simp [h2, UpdateOutcome.effects]
      · simp [h2] at herr
  · simp [h1] at herr

/-- C13: in every run of `UpdatePost` the first effect is the cache delete,
and the effects are, in this order, the cache delete, the database update and
the start of the delayed delete of the same post, as far as the run gets. The
database update is issued exactly when the first delete returned nil (and the
post ID is not 0); the delayed delete is started exactly when, besides, the
database update returned nil, which is exactly when `UpdatePost` returns nil.
The cache is changed by the first delete only, and when that delete returned
nil a read of the cached summary of the post made when the database update is
issued, or later in the run, finds none. The store is changed by the database
update only. -/
theorem UpdatePost_effect_order {S : Type} (f : UpdateFaults) (ctx : Context) (now : Int)
    (c : Cache S) (db : DB) (postDTO : PostDetail) :
    (service.UpdatePost f ctx now c db postDTO).log
        = (UpdateEffect.deletePostSummary postDTO.PostID, cachedSummary c postDTO.PostID)
          :: (if (DeletePostSummary f.firstDeleteErr ctx now c postDTO.PostID).2 = Option.none
                ∧ postDTO.PostID ≠ 0 then
                (UpdateEffect.daoUpdatePost postDTO.PostID, Option.none)
                :: (if (dao.UpdatePost f.tx db postDTO
                      (TruncateByWords postDTO.Content MaxSummaryLength)).2 = Option.none then
                      [(UpdateEffect.goDelayedDelete postDTO.PostID (2 * Second), Option.none)]
                    else [])
              else [])
    ∧ (service.UpdatePost f ctx now c db postDTO).effects.head?
        = some (UpdateEffect.deletePostSummary postDTO.PostID)
    ∧ (service.UpdatePost f ctx now c db postDTO).effects
        <+: [UpdateEffect.deletePostSummary postDTO.PostID,
             UpdateEffect.daoUpdatePost postDTO.PostID,
             UpdateEffect.goDelayedDelete postDTO.PostID (2 * Second)]
    ∧ (UpdateEffect.daoUpdatePost postDTO.PostID
          ∈ (service.UpdatePost f ctx now c db postDTO).effects ↔
        (DeletePostSummary f.firstDeleteErr ctx now c postDTO.PostID).2 = Option.none
        ∧ postDTO.PostID ≠ 0)
    ∧ (UpdateEffect.goDelayedDelete postDTO.PostID (2 * Second)
          ∈ (service.UpdatePost f ctx now c db postDTO).effects ↔
        (DeletePostSummary f.firstDeleteErr ctx now c postDTO.PostID).2 = Option.none
        ∧ postDTO.PostID ≠ 0
        ∧ (dao.UpdatePost f.tx db postDTO (TruncateByWords postDTO.Content MaxSummaryLength)).2
            = Option.none)
    ∧ ((service.UpdatePost f ctx now c db postDTO).err = Option.none ↔
        UpdateEffect.goDelayedDelete postDTO.PostID (2 * Second)
          ∈ (service.UpdatePost f ctx now c db postDTO).effects)
    ∧ (service.UpdatePost f ctx now c db postDTO).cache
        = (DeletePostSummary f.firstDeleteErr ctx now c postDTO.PostID).1
    ∧ ((DeletePostSummary f.firstDeleteErr ctx now c postDTO.PostID).2 = Option.none →
        cachedSummary (service.UpdatePost f ctx now c db postDTO).cache postDTO.PostID
          = Option.none)
    ∧ (service.UpdatePost f ctx now c db postDTO).db
        = (if UpdateEffect.daoUpdatePost postDTO.PostID
              ∈ (service.UpdatePost f ctx now c db postDTO).effects then
            (dao.UpdatePost f.tx db postDTO
              (TruncateByWords postDTO.Content MaxSummaryLength)).1
          else db) := by
  have hdel := DeletePostSummary_deleted f.firstDeleteErr ctx now c postDTO.PostID
  rw [UpdatePost_run]
  by_cases h1 : (DeletePostSummary f.firstDeleteErr ctx now c postDTO.PostID).2 = Option.none
  · have hc := hdel h1
    by_cases hid : postDTO.PostID = 0
    · have hid1 := eq_true hid
      simp [h1, hid1, UpdateOutcome.effects, hc]
    · by_cases h2 : (dao.UpdatePost f.tx db postDTO
          (TruncateByWords postDTO.Content MaxSummaryLength)).2 = Option.none
      · simp [h1, hid, h2, UpdateOutcome.effects, hc]
      · simp [h1, hid, h2, UpdateOutcome.effects, hc]
  · simp [h1, UpdateOutcome.effects]

/-- C13, at a concrete input: the summary of post 1 is cached and no backend
call fails. The run of `UpdatePost` issues the cache delete (a read finds the
summary just before it), then the database update, then starts the delayed
delete (a read finds no summary at either moment); it returns nil, the cache
holds no summary of post 1 and the store holds the new title. -/
theorem UpdatePost_effect_order_witness :
    (service.UpdatePost UpdateFaults.none exampleContext 0 exampleUpdateCache exampleDBVoted
        examplePostUpdate).log
      = [(UpdateEffect.deletePostSummary 1, some (Marshal exampleSummary1)),
         (UpdateEffect.daoUpdatePost 1, Option.none),
         (UpdateEffect.goDelayedDelete 1 (2 * Second), Option.none)]
    ∧ (service.UpdatePost UpdateFaults.none exampleContext 0 exampleUpdateCache exampleDBVoted
        examplePostUpdate).err = Option.none
    ∧ cachedSummary (service.UpdatePost UpdateFaults.none exampleContext 0 exampleUpdateCache
        exampleDBVoted examplePostUpdate).cache 1 = Option.none
    ∧ (service.UpdatePost UpdateFaults.none exampleContext 0 exampleUpdateCache exampleDBVoted
        examplePostUpdate).db.post
      = [⟨⟨1, "new title", "new content", 7, "author", 3, "community", 1⟩, 0, "new content"⟩] :=
  ⟨(UpdatePost_effect_order UpdateFaults.none exampleContext 0 exampleUpdateCache exampleDBVoted
      examplePostUpdate).1.trans rfl, rfl, rfl, rfl⟩

/-- C14 (code bug): post 1 has 3 votes and was created at Unix time 1577808000;
it is ranked with the scores 1577808000 and `hot 3 1577808000`, and its summary
is missing from the cache. `GetPostList` reads the summary from the store and
caches it again with `SavePost`, at Unix time 1577853000: the time score
becomes 1577853000 and the hotness score `hot 0 1577853000 = 1`, the score of a
post without votes created at the time of the refresh, not
`hot 3 1577808000`. -/
theorem GetPostList_refresh_resets_scores :
    voteCounter exampleListDB 1 = some 3
    ∧ cachedSummary exampleListCache 1 = Option.none
    ∧ timeScore exampleListCache 1 = some 1577808000
    ∧ hotScore exampleListCache 1 = some (hot 3 1577808000)
    ∧ (service.GetPostList ListFaults.none exampleClock exampleListCache exampleListDB
          1 10 OrderByHot).result
        = Except.ok [PostSummary.zero, ⟨1, "t", "c", 7, "author", 3, "community"⟩]
    ∧ cachedSummary (service.GetPostList ListFaults.none exampleClock exampleListCache
          exampleListDB 1 10 OrderByHot).cache 1
        = some (Marshal ⟨1, "t", "c", 7, "author", 3, "community"⟩)
    ∧ timeScore (service.GetPostList ListFaults.none exampleClock exampleListCache
          exampleListDB 1 10 OrderByHot).cache 1 = some 1577853000
    ∧ hotScore (service.GetPostList ListFaults.none exampleClock exampleListCache
          exampleListDB 1 10 OrderByHot).cache 1 = some (hot 0 1577853000)
    ∧ hot 0 1577853000 = 1
    ∧ hot 0 1577853000 ≠ hot 3 1577808000
    ∧ (1577853000 : ℝ) ≠ 1577808000 := by
  have hrun : (service.GetPostList ListFaults.none exampleClock exampleListCache
      exampleListDB 1 10 OrderByHot).cache
      = (SavePost SaveFaults.none 1577853000 1577853000 exampleListCache
          ⟨1, "t", "c", 7, "author", 3, "community"⟩).1 := rfl
  obtain ⟨hs, ht, hh⟩ := SavePost_scores exampleListCache 1577853000 1577853000
    ⟨1, "t", "c", 7, "author", 3, "community"⟩
  have h0 : hot 0 1577853000 = 1 := by
    rw [hot_of_nonneg 0 1577853000 (by decide)]
    simp only [log10, Int.cast_zero, Int.cast_ofNat]
    norm_num
  have h3 : hot 3 1577808000 = Real.logb 10 3 := by
    rw [hot_of_nonneg 3 1577808000 (by decide)]
    simp only [log10, Int.cast_ofNat]
    norm_num
  have hlt : Real.logb 10 3 < 1 := by
    have := Real.logb_lt_logb (b := 10) (by norm_num) (by norm_num : (0 : ℝ) < 3)
      (by norm_num : (3 : ℝ) < 10)
    rwa [Real.logb_self_eq_one (by norm_num)] at this
  refine ⟨by decide, rfl, rfl, rfl, rfl, ?_, ?_, ?_, h0, ?_, by norm_num⟩
  · rw [hrun]; exact hs
  · rw [hrun]; refine Eq.trans ht ?_; norm_num
  · rw [hrun]; exact hh
  · rw [h0, h3]
    exact ne_of_gt hlt

/-- C15 (code bug): when an unvote intent is persisted on a post whose stored
vote count is `u ≥ 2`, the count becomes `u - 1`, but the worker passes the
count read back after the update as the old count and adds the vote value 0 to
it for the new one: the hotness score changes by `deltaHot (u-1) (u-1) = 0`,
where the specified change is `log10(max(u-1,1)) - log10(max(u,1))`, which is
not 0. -/
theorem handleLikeMessage_unvote_keeps_score (w : World) (postID userID u : Int)
    (hu : 2 ≤ u) (hcount : voteCounter w.db postID = some u)
    (hok : (AddPostVoteWithTx TxFaults.none w.db postID userID 0).2 = Option.none) :
    voteCounter (handleLikeMessage LikeFaults.none w postID userID 0).db postID = some (u - 1)
    ∧ hotScore (handleLikeMessage LikeFaults.none w postID userID 0).cache postID
        = some ((hotScore w.cache postID).getD 0 + 0)
    ∧ (0 : ℝ) ≠ log10 (max ((u - 1 : Int) : ℝ) 1) - log10 (max ((u : Int) : ℝ) 1) := by
  obtain ⟨rows, n, -, -, htx⟩ := AddPostVoteWithTx_ok _ _ _ _ _ hok
  have hcnt1 := voteCounter_execCounter w.db rows postID 0
  rw [hcount] at hcnt1
  simp only [Option.map_some', show ¬ (0 : Int) > 0 from by decide, if_false] at hcnt1
  obtain ⟨cnt, hget, hval⟩ := GetPostVoteCount_of_voteCounter _ _ _ hcnt1
  have hrun := handleLikeMessage_noFaults w postID userID 0 _ cnt htx hget
  simp only [if_true] at hrun
  refine ⟨by rw [hrun]; exact hcnt1, ?_, ?_⟩
  · rw [hrun, hval]
    simp only [AddPostHot, hotScore, Bool.false_eq_true, if_false, Function.update_same,
      ZSet.zincrby, ZSet.score_zadd, deltaHot, add_zero, sub_self]
  · have h1 : (1 : ℝ) ≤ ((u - 1 : Int) : ℝ) := by exact_mod_cast (by omega : (1 : Int) ≤ u - 1)
    have h2 : (1 : ℝ) ≤ ((u : Int) : ℝ) := by exact_mod_cast (by omega : (1 : Int) ≤ u)
    have hlt : ((u - 1 : Int) : ℝ) < ((u : Int) : ℝ) := by exact_mod_cast (by omega : u - 1 < u)
    rw [max_eq_left h1, max_eq_left h2]
    have := Real.logb_lt_logb (b := 10) (by norm_num) (by linarith) hlt
    unfold log10
    linarith

/-- C15, at a concrete input: user 2 takes back the vote on post 1 (count 2,
score 0); the count becomes 1 and the score stays 0, where the specified change
is `log10 1 - log10 2`. -/
theorem handleLikeMessage_unvote_keeps_score_witness :
    voteCounter (handleLikeMessage LikeFaults.none exampleWorldVoted 1 2 0).db 1 = some (2 - 1)
    ∧ hotScore (handleLikeMessage LikeFaults.none exampleWorldVoted 1 2 0).cache 1
        = some ((hotScore exampleWorldVoted.cache 1).getD 0 + 0)
    ∧ (0 : ℝ) ≠ log10 (max ((2 - 1 : Int) : ℝ) 1) - log10 (max ((2 : Int) : ℝ) 1) :=
  handleLikeMessage_unvote_keeps_score exampleWorldVoted 1 2 2 (by decide) (by decide)
    (by decide)

/-- C16: for all vote counts `oldUp ≥ 0` and `newUp ≥ 0` and every creation
instant, `hot newUp t - hot oldUp t` equals `deltaHot oldUp newUp`, which is
`log10(max(newUp,1)) - log10(max(oldUp,1))`. -/
theorem hot_sub_hot_eq_deltaHot (oldUp newUp unix : Int) (hold : 0 ≤ oldUp) (hnew : 0 ≤ newUp) :
    hot newUp unix - hot oldUp unix = deltaHot oldUp newUp
    ∧ deltaHot oldUp newUp
        = Real.logb 10 (max (newUp : ℝ) 1) - Real.logb 10 (max (oldUp : ℝ) 1) := by
  refine ⟨?_, rfl⟩
  rw [hot_of_nonneg newUp unix hnew, hot_of_nonneg oldUp unix hold]
  unfold deltaHot
  ring

/-- C16, at a concrete input: from 3 to 4 votes on a post created at Unix time
1700000000. -/
theorem hot_sub_hot_eq_deltaHot_witness :
    hot 4 1700000000 - hot 3 1700000000 = deltaHot 3 4
    ∧ deltaHot 3 4
        = Real.logb 10 (max ((4 : Int) : ℝ) 1) - Real.logb 10 (max ((3 : Int) : ℝ) 1) :=
  hot_sub_hot_eq_deltaHot 3 4 1700000000 (by decide) (by decide)

/-- C17 (as amended): the epoch offset 1577808000 subtracted in `hot` is the
Unix time of 2019-12-31T16:00:00Z, which is 2020-01-01T00:00:00 at UTC+8: for
`ups = 5` and that instant the seconds term is 0 and `hot` returns
`1*log10(5) + 0`, within `0.00005` of `0.69897`. -/
theorem hot_golden_value :
    unixUTC 2019 12 31 16 0 0 = 1577808000
    ∧ unixUTC 2020 1 1 0 0 0 - 8 * 3600 = 1577808000
    ∧ hot 5 (unixUTC 2019 12 31 16 0 0) = 1 * Real.logb 10 5 + 0
    ∧ |hot 5 (unixUTC 2019 12 31 16 0 0) - 0.69897| < 0.00005 := by
  have hval : hot 5 (unixUTC 2019 12 31 16 0 0) = 1 * Real.logb 10 5 + 0 := by
    rw [show unixUTC 2019 12 31 16 0 0 = 1577808000 from by decide,
      hot_of_nonneg 5 1577808000 (by decide)]
    simp [log10]
  refine ⟨by decide, by decide, hval, ?_⟩
  rw [hval, abs_lt]
  obtain ⟨hlo, hhi⟩ := log10_five_bounds
  constructor
  · have : (0.69897 : ℝ) - 0.00005 < 65 / 93 := by norm_num
    linarith
  · have : (137 : ℝ) / 196 < 0.69897 + 0.00005 := by norm_num
    linarith

/-- C17 (counterexample): the Unix time of 2020-01-01T00:00:00Z is 1577836800,
not 1577808000; for `ups = 5` and that date the seconds term is 28800 and `hot`
returns `log10(5) + 0.64`, not `1*log10(5) + 0`. -/
theorem hot_epoch_is_not_utc_midnight :
    unixUTC 2020 1 1 0 0 0 = 1577836800
    ∧ unixUTC 2020 1 1 0 0 0 ≠ 1577808000
    ∧ unixUTC 2020 1 1 0 0 0 - 1577808000 = 28800
    ∧ hot 5 (unixUTC 2020 1 1 0 0 0) = Real.logb 10 5 + 16 / 25
    ∧ hot 5 (unixUTC 2020 1 1 0 0 0) ≠ 1 * Real.logb 10 5 + 0 := by
  have hval : hot 5 (unixUTC 2020 1 1 0 0 0) = Real.logb 10 5 + 16 / 25 := by
    rw [show unixUTC 2020 1 1 0 0 0 = 1577836800 from by decide,
      hot_of_nonneg 5 1577836800 (by decide)]
    simp only [log10, Int.cast_ofNat]
    norm_num
  refine ⟨by decide, by decide, by decide, hval, ?_⟩
  rw [hval]
  intro h
  linarith

/-- C19: for every vote intent whose persistence transaction returns an error,
`handleLikeMessage` stops there: the cache (so every hotness score) is as
before, no message is handed to the hub, and the hub and the store are as
before. -/
theorem handleLikeMessage_tx_failure (f : LikeFaults) (w : World) (postID userID vote : Int)
    (hfail : (AddPostVoteWithTx f.tx w.db postID userID vote).2 ≠ Option.none) :
    (handleLikeMessage f w postID userID vote).cache = w.cache
    ∧ (handleLikeMessage f w postID userID vote).handed = w.handed
    ∧ (handleLikeMessage f w postID userID vote).hub = w.hub
    ∧ (handleLikeMessage f w postID userID vote).db = w.db := by
  rw [handleLikeMessage_of_tx_error f w postID userID vote hfail]
  exact ⟨rfl, rfl, rfl, rfl⟩

/-- C19, at a concrete input: the commit of the transaction fails. -/
theorem handleLikeMessage_tx_failure_witness :
    (handleLikeMessage ⟨⟨false, false, false, true⟩, false, false, false⟩
        exampleWorld 1 2 1).cache = exampleWorld.cache
    ∧ (handleLikeMessage ⟨⟨false, false, false, true⟩, false, false, false⟩
        exampleWorld 1 2 1).handed = exampleWorld.handed
    ∧ (handleLikeMessage ⟨⟨false, false, false, true⟩, false, false, false⟩
        exampleWorld 1 2 1).hub = exampleWorld.hub
    ∧ (handleLikeMessage ⟨⟨false, false, false, true⟩, false, false, false⟩
        exampleWorld 1 2 1).db = exampleWorld.db :=
  handleLikeMessage_tx_failure ⟨⟨false, false, false, true⟩, false, false, false⟩
    exampleWorld 1 2 1 (by decide)

/-- C20 (code bug): for a positive vote intent that is persisted and scored,
`handleLikeMessage` hands the notification to the hub also when the voter is
the author of the post: the author it reads is compared with nothing. -/
theorem handleLikeMessage_notifies_own_vote (w : World) (postID userID vote : Int)
    (hv : vote > 0)
    (hok : (AddPostVoteWithTx TxFaults.none w.db postID userID vote).2 = Option.none)
    (_hauthor : ∃ post,
      GetPostDetail false (handleLikeMessage LikeFaults.none w postID userID vote).db postID
          = Except.ok post
        ∧ post.AuthorId = userID) :
    (handleLikeMessage LikeFaults.none w postID userID vote).handed
      = w.handed ++ [voteNotification postID userID] := by
  obtain ⟨rows, n, -, -, htx⟩ := AddPostVoteWithTx_ok _ _ _ _ _ hok
  obtain ⟨cnt, hget⟩ := GetPostVoteCount_ok
    { w.db with vote_post := rows,
                content_votes := execCounter w.db.content_votes postID vote } postID
  rw [handleLikeMessage_noFaults w postID userID vote _ cnt htx hget]
  simp only [show vote ≠ 0 from by omega, if_false]

/-- C20, at a concrete input: user 7, the author of post 1, votes for it, and
one notification is handed to the hub. -/
theorem handleLikeMessage_notifies_own_vote_witness :
    (handleLikeMessage LikeFaults.none exampleWorld 1 7 1).handed
      = [] ++ [voteNotification 1 7] :=
  handleLikeMessage_notifies_own_vote exampleWorld 1 7 1 (by decide) (by decide)
    ⟨⟨1, "t", "c", 7, "author", 3, "community", 1⟩, by
      rw [handleLikeMessage_db]
      rfl, rfl⟩

/-- C21: for every cache state and post ID, when `DEL` does not fail and the
context has not expired, `DeletePostSummary` called twice in a row returns nil
both times and leaves the cache as one call leaves it, with no summary of the
post. -/
theorem DeletePostSummary_idempotent {S : Type} (ctx : Context) (now1 now2 : Int) (c : Cache S)
    (postID : Int) (h1 : ctx.Err now1 = Option.none) (h2 : ctx.Err now2 = Option.none) :
    (DeletePostSummary false ctx now1 c postID).2 = Option.none
    ∧ DeletePostSummary false ctx now2 (DeletePostSummary false ctx now1 c postID).1 postID
        = ((DeletePostSummary false ctx now1 c postID).1, Option.none)
    ∧ cachedSummary (DeletePostSummary false ctx now1 c postID).1 postID = Option.none := by
  simp only [DeletePostSummary, h1, h2, Bool.false_eq_true, if_false, cachedSummary,
    Function.update_same, Function.update_idem, and_self]

/-- C21, at a concrete input: the summary of post 5 is deleted twice under a
context without deadline. -/
theorem DeletePostSummary_idempotent_witness :
    (DeletePostSummary false Background 10 exampleFullCache 5).2 = Option.none
    ∧ DeletePostSummary false Background 20
          (DeletePostSummary false Background 10 exampleFullCache 5).1 5
        = ((DeletePostSummary false Background 10 exampleFullCache 5).1, Option.none)
    ∧ cachedSummary (DeletePostSummary false Background 10 exampleFullCache 5).1 5
        = Option.none :=
  DeletePostSummary_idempotent Background 10 20 exampleFullCache 5 rfl rfl

/-- C22 (code bug): `n` concurrent calls of `GetPostList` with identical
`(order, pageNum, pageSize)` run the fetch `n` times, not once: the
`singleflight.Group` is a local variable of the call, so no caller ever finds a
call in flight. Concurrent calls of `GetVotePostCount` for one post, which
share the package variable `postVoteCountGroup`, run the fetch once. -/
theorem GetPostList_not_coalesced (n : Nat) (order pageNum pageSize postID : Int) :
    GetPostListRuns (List.replicate n (order, pageNum, pageSize)) = n
    ∧ GetPostListRuns (List.replicate (n + 2) (order, pageNum, pageSize)) ≠ 1
    ∧ GetVotePostCountRuns Group.zero (List.replicate (n + 1) postID) = 1 := by
  refine ⟨?_, ?_, ?_⟩
  · rw [GetPostListRuns_length, List.length_replicate]
  · rw [GetPostListRuns_length, List.length_replicate]
    omega
  · unfold GetVotePostCountRuns
    rw [List.map_replicate]
    exact sharedGroupRuns_replicate _ n

/-- C23 (code bug): `AddPostHot` increments the score of the post in the
hotness set with `ZINCRBY`, which adds the member when it is absent, and does
not touch the time-ordered set. So after post 1 was saved and then deleted
from the cache (it is in neither set), a vote for it that is persisted puts it
back into the hotness set alone. -/
theorem vote_reinserts_deleted_post (c : Cache ℝ) (postID oldUp newUp : Int) :
    (hotScore (AddPostHot false c postID oldUp newUp).1 postID ≠ Option.none
      ∧ timeScore (AddPostHot false c postID oldUp newUp).1 postID = timeScore c postID)
    ∧ timeScore exampleDeletedCache 1 = Option.none
    ∧ hotScore exampleDeletedCache 1 = Option.none
    ∧ (AddPostVoteWithTx TxFaults.none exampleDeletedWorld.db 1 2 1).2 = Option.none
    ∧ timeScore (handleLikeMessage LikeFaults.none exampleDeletedWorld 1 2 1).cache 1
        = Option.none
    ∧ hotScore (handleLikeMessage LikeFaults.none exampleDeletedWorld 1 2 1).cache 1
        = some (0 + deltaHot 1 (1 + 1)) := by
  have hne : GenerateRedisKey PostTimeTemplate [] ≠ GenerateRedisKey PostRankingTemplate [] := by
    decide
  refine ⟨⟨?_, ?_⟩, rfl, rfl, by decide, rfl, rfl⟩
  · simp [AddPostHot, hotScore, ZSet.zincrby, ZSet.score_zadd]
  · simp [AddPostHot, timeScore, Function.update_noteq hne]

/-- C24 (code bug): post 1 is listed in the hotness set and its summary is
missing from the cache. `GetPostList` with `pageSize = 1` returns two entries:
the zero-valued summary that `GetPostSummary` leaves in the slot of the missing
ID, followed by the summary read from the store. -/
theorem GetPostList_returns_placeholder :
    GetPostIDs false exampleListCache OrderByHot 1 1 = Except.ok [1]
    ∧ GetPostSummary false exampleListCache [1] = Except.ok ([PostSummary.zero], [1])
    ∧ (service.GetPostList ListFaults.none exampleClock exampleListCache exampleListDB
          1 1 OrderByHot).result
        = Except.ok [PostSummary.zero, exampleSummary1]
    ∧ PostSummary.zero ∈ [PostSummary.zero, exampleSummary1]
    ∧ (1 : Nat) < [PostSummary.zero, exampleSummary1].length := by
  refine ⟨rfl, rfl, rfl, List.mem_cons_self _ _, by decide⟩

/-- C25 (code bug): user 2 has voted for post 1, whose counter is at 2. A
message whose `post_id` and `user_id` are well formed and whose `vote` is a
string makes `json.Unmarshal` return an error, but `handleLikeMessage` only
logs it and goes on with `Vote = 0`: the vote row of user 2 is deleted and the
counter lowered to 1, as for an unvote. Bytes that are not a JSON object leave
the world as it is, since the empty `PostID` does not parse. -/
theorem handleLikeMessage_decode_error_unvotes (f : LikeFaults) (w : World) :
    handleLikeKafkaMessage f w Payload.invalid = w
    ∧ (UnmarshalVote exampleBadVotePayload ⟨"", "", 0⟩).2 = some Error.unmarshal
    ∧ (UnmarshalVote exampleBadVotePayload ⟨"", "", 0⟩).1 = ⟨"1", "2", 0⟩
    ∧ exampleWorldVoted.db.vote_post = [⟨1, 2⟩]
    ∧ voteCounter exampleWorldVoted.db 1 = some 2
    ∧ (handleLikeKafkaMessage LikeFaults.none exampleWorldVoted exampleBadVotePayload).db.vote_post
        = []
    ∧ voteCounter
        (handleLikeKafkaMessage LikeFaults.none exampleWorldVoted exampleBadVotePayload).db 1
        = some 1 := by
  refine ⟨rfl, rfl, rfl, rfl, rfl, rfl, rfl⟩

/-- C26 (code bug): after `connect c1`, `connect c2` with the same user and
then `disconnect c1`, the live-subscriber map has no entry for the user: the
`disconnect` step deletes the entry of the user whichever client it holds, and
the newer client `c2` is unregistered. -/
theorem disconnect_stale_unregisters_newer (h : Hub) (c1 c2 : Client)
    (hsame : c1.User = c2.User) :
    ((h.connect c1).connect c2).Clients c2.User ≠ Option.none
    ∧ (((h.connect c1).connect c2).disconnect c1).Clients c2.User = Option.none := by
  constructor
  · rw [(Hub.connect_user (h.connect c1) c2).1]
    exact Option.some_ne_none _
  · simp [Hub.disconnect, hsame]

/-- C26, at a concrete input: user "A" connects twice, then the first
connection is closed. -/
theorem disconnect_stale_unregisters_newer_witness :
    ((newHub.connect ⟨"A", []⟩).connect ⟨"A", [exampleMessage1]⟩).Clients "A" ≠ Option.none
    ∧ (((newHub.connect ⟨"A", []⟩).connect ⟨"A", [exampleMessage1]⟩).disconnect
          ⟨"A", []⟩).Clients "A" = Option.none :=
  disconnect_stale_unregisters_newer newHub ⟨"A", []⟩ ⟨"A", [exampleMessage1]⟩ rfl

/-- C27 (code bug): `VotePost` and `RevokeVotePost` pass the same key to
`voteGroup.Do` for the same `(postID, userID)`, both built from
`SingleFlightKeyVotePost`. An unvote that arrives while the vote of the same
pair is in flight is taken for a duplicate of it: its function does not run and
no unvote message is sent; likewise a vote that arrives while the unvote is in
flight. -/
theorem vote_and_unvote_share_key (voteGroup : Group) (postID userID : Int) :
    (RevokeVotePost (VotePost voteGroup postID userID).1 postID userID).2 = []
    ∧ (VotePost (RevokeVotePost voteGroup postID userID).1 postID userID).2 = []
    ∧ (VotePost Group.zero postID userID).1 = (RevokeVotePost Group.zero postID userID).1
    ∧ (VotePost Group.zero postID userID).1.inflight
        = [GenerateSingleFlightKey SingleFlightKeyVotePost [postID, userID]] := by
  refine ⟨?_, ?_, rfl, rfl⟩
  · simp only [RevokeVotePost, VotePost, Group.Do]
    by_cases hin : GenerateSingleFlightKey SingleFlightKeyVotePost [postID, userID]
        ∈ voteGroup.inflight
    · simp [hin]
    · simp [hin]
  · simp only [RevokeVotePost, VotePost, Group.Do]
    by_cases hin : GenerateSingleFlightKey SingleFlightKeyVotePost [postID, userID]
        ∈ voteGroup.inflight
    · simp [hin]
    · simp [hin]

/-- C28 (code bug): `InitKafkaManager` starts a consumer for the topic
`notification`, and the table `handles` has no handler for it: for a message
read from that topic `handles[topic](msg)` calls the nil function and panics.
The other three topics have their handlers. -/
theorem notification_topic_has_no_handler :
    TopicNotification ∈ consumedTopics
    ∧ handles TopicNotification = Option.none
    ∧ dispatch TopicNotification = (Completion.nilFuncPanic, Option.none)
    ∧ dispatch TopicCreatePost = (Completion.done, some Handler.handleCreatePostMessage)
    ∧ dispatch TopicLike = (Completion.done, some Handler.handleLikeMessage)
    ∧ dispatch TopicComment = (Completion.done, some Handler.handleCommentMessage) := by
  decide

/-- C29 (code bug): `EncryptPassword` feeds only the secret to the hash and
passes the password to `Sum`, which puts it in front of the digest. With a
16-byte digest the output is the hexadecimal form of the password followed by
the 32 hexadecimal characters of the digest of the secret: it has
`2 * len(p) + 32` characters, starts with the password in hexadecimal, and ends
in the same 32 characters for every password. -/
theorem EncryptPassword_exposes_password (md5 : List UInt8 → List UInt8)
    (secret password : List UInt8) (hdigest : (md5 secret).length = 16) :
    EncryptPassword md5 secret password = hexEncode password ++ hexEncode (md5 secret)
    ∧ (EncryptPassword md5 secret password).length = 2 * password.length + 32
    ∧ (0 < password.length → (EncryptPassword md5 secret password).length ≠ 32) := by
  have hrun : EncryptPassword md5 secret password
      = hexEncode password ++ hexEncode (md5 secret) := by
    simp [EncryptPassword, hexEncode_append]
  have hlen : (EncryptPassword md5 secret password).length = 2 * password.length + 32 := by
    rw [hrun, List.length_append, hexEncode_length, hexEncode_length, hdigest]
  refine ⟨hrun, hlen, ?_⟩
  intro hpos
  rw [hlen]
  omega

/-- C29, at a concrete input: for the password "a" (the byte 97) the output
starts with "61" and has 34 characters. -/
theorem EncryptPassword_exposes_password_witness :
    String.mk (hexEncode [97]) = "61"
    ∧ String.mk (EncryptPassword exampleDigest [115] [97])
        = "6100000000000000000000000000000000"
    ∧ EncryptPassword exampleDigest [115] [97] = hexEncode [97] ++ hexEncode (exampleDigest [115])
    ∧ (EncryptPassword exampleDigest [115] [97]).length = 2 * [(97 : UInt8)].length + 32
    ∧ (0 < [(97 : UInt8)].length → (EncryptPassword exampleDigest [115] [97]).length ≠ 32) :=
  ⟨by decide, by decide, EncryptPassword_exposes_password exampleDigest [115] [97] rfl⟩

/-- C30: keys of the post-list template are equal only for equal
`(order, pageNum, pageSize)` over all integers, keys of the vote template only
for equal `(postID, userID)`, and keys built from two different templates among
`post_list`, `post_detail`, `vote_post` and `post_vote_count` are never equal. -/
theorem GenerateSingleFlightKey_injective :
    (∀ a b c a' b' c' : Int,
        GenerateSingleFlightKey SingleFlightKeyPostList [a, b, c]
          = GenerateSingleFlightKey SingleFlightKeyPostList [a', b', c'] ↔
        (a = a' ∧ b = b' ∧ c = c'))
    ∧ (∀ p u p' u' : Int,
        GenerateSingleFlightKey SingleFlightKeyVotePost [p, u]
          = GenerateSingleFlightKey SingleFlightKeyVotePost [p', u'] ↔
        (p = p' ∧ u = u'))
    ∧ (∀ a b c d p u e : Int,
        GenerateSingleFlightKey SingleFlightKeyPostList [a, b, c]
          ≠ GenerateSingleFlightKey SingleFlightKeyPostDetail [d]
        ∧ GenerateSingleFlightKey SingleFlightKeyPostList [a, b, c]
          ≠ GenerateSingleFlightKey SingleFlightKeyVotePost [p, u]
        ∧ GenerateSingleFlightKey SingleFlightKeyPostList [a, b, c]
          ≠ GenerateSingleFlightKey SingleFlightKeyPostVoteCount [e]
        ∧ GenerateSingleFlightKey SingleFlightKeyPostDetail [d]
          ≠ GenerateSingleFlightKey SingleFlightKeyVotePost [p, u]
        ∧ GenerateSingleFlightKey SingleFlightKeyPostDetail [d]
          ≠ GenerateSingleFlightKey SingleFlightKeyPostVoteCount [e]
        ∧ GenerateSingleFlightKey SingleFlightKeyVotePost [p, u]
          ≠ GenerateSingleFlightKey SingleFlightKeyPostVoteCount [e]) := by
  have hlist : ∀ a b c : Int, GenerateSingleFlightKey SingleFlightKeyPostList [a, b, c]
      = ⟨['p', 'o', 's', 't', '_', 'l', 'i', 's', 't', '_'] ++ ((FormatInt a).data ++ '_' :: ((FormatInt b).data
          ++ '_' :: ((FormatInt c).data ++ [])))⟩ := fun _ _ _ => rfl
  have hvote : ∀ p u : Int, GenerateSingleFlightKey SingleFlightKeyVotePost [p, u]
      = ⟨['v', 'o', 't', 'e', '_', 'p', 'o', 's', 't', '_'] ++ ((FormatInt p).data ++ '_' :: ((FormatInt u).data ++ []))⟩ :=
    fun _ _ => rfl
  have hdetail : ∀ d : Int, GenerateSingleFlightKey SingleFlightKeyPostDetail [d]
      = ⟨['p', 'o', 's', 't', '_', 'd', 'e', 't', 'a', 'i', 'l', '_'] ++ ((FormatInt d).data ++ [])⟩ := fun _ => rfl
  have hcount : ∀ e : Int, GenerateSingleFlightKey SingleFlightKeyPostVoteCount [e]
      = ⟨['p', 'o', 's', 't', '_', 'v', 'o', 't', 'e', '_', 'c', 'o', 'u', 'n', 't', '_'] ++ ((FormatInt e).data ++ [])⟩ := fun _ => rfl
  refine ⟨?_, ?_, ?_⟩
  · intro a b c a' b' c'
    constructor
    · intro h
      rw [hlist, hlist] at h
      have h1 := List.append_cancel_left (congrArg String.data h)
      obtain ⟨ha, h2⟩ := append_separator_inj _ _ _ _ (FormatInt_no_separator a)
        (FormatInt_no_separator a') h1
      obtain ⟨hb, h3⟩ := append_separator_inj _ _ _ _ (FormatInt_no_separator b)
        (FormatInt_no_separator b') h2
      rw [List.append_nil, List.append_nil] at h3
      exact ⟨FormatInt_data_injective _ _ ha, FormatInt_data_injective _ _ hb,
        FormatInt_data_injective _ _ h3⟩
    · rintro ⟨rfl, rfl, rfl⟩
      rfl
  · intro p u p' u'
    constructor
    · intro h
      rw [hvote, hvote] at h
      have h1 := List.append_cancel_left (congrArg String.data h)
      obtain ⟨hp, h2⟩ := append_separator_inj _ _ _ _ (FormatInt_no_separator p)
        (FormatInt_no_separator p') h1
      rw [List.append_nil, List.append_nil] at h2
      exact ⟨FormatInt_data_injective _ _ hp, FormatInt_data_injective _ _ h2⟩
    · rintro ⟨rfl, rfl⟩
      rfl
  · intro a b c d p u e
    rw [hlist, hvote, hdetail, hcount]
    refine ⟨?_, ?_, ?_, ?_, ?_, ?_⟩ <;>
    · intro h
      have h1 := congrArg String.data h
      simp at h1

end GinTalk
